import Mathlib

/-!
Verification of the `@gobrand/calendar-core` grid-building and navigation
engine (packages/core/src).  The TypeScript sources are shallowly embedded:
Temporal date values become explicit records over `Int`/`Nat`, the mutable
store of `createCalendar` becomes explicit state passing, and the `while`
loops of `buildMonth` and `buildDay` become fuel-indexed recursions that
return `none` exactly when the fuel runs out before the loop exits.
-/

set_option maxRecDepth 16000

namespace Spec2Proof

/-! ### Date model (embedding of Temporal.PlainDate as used by the library)

`Temporal.PlainDate` is an ISO (proleptic Gregorian) calendar date.  The
library uses: `dayOfWeek` (ISO, 1 = Monday .. 7 = Sunday), `daysInMonth`,
`add`/`subtract` by days, `with {day}`, and comparison.  We model a date as
a `(year, month, day)` record; `PlainDate.Valid` states the in-range
invariant every Temporal date satisfies. -/

structure PlainDate where
  year : Int
  month : Nat
  day : Nat
  deriving DecidableEq, Repr

/-- ISO leap-year rule (divisible by 4 and not by 100, or divisible by 400). -/
def isLeapYear (y : Int) : Bool := (y % 4 == 0 && y % 100 != 0) || (y % 400 == 0)

/-- Number of days of month `m` in a year whose leap flag is `leap`. -/
def daysInMonthOf (leap : Bool) (m : Nat) : Nat :=
  match m with
  | 2 => if leap then 29 else 28
  | 4 => 30
  | 6 => 30
  | 9 => 30
  | 11 => 30
  | _ => 31

/-- `Temporal.PlainDate.daysInMonth` / `PlainYearMonth.daysInMonth`. -/
def daysInMonth (y : Int) (m : Nat) : Nat := daysInMonthOf (isLeapYear y) m

/-- The invariant of every real `Temporal.PlainDate` value. -/
def PlainDate.Valid (d : PlainDate) : Prop :=
  1 ≤ d.month ∧ d.month ≤ 12 ∧ 1 ≤ d.day ∧ d.day ≤ daysInMonth d.year d.month

instance (d : PlainDate) : Decidable d.Valid := by
  unfold PlainDate.Valid; infer_instance

/-- `date.add({days: 1})` on a calendar date: step one day forward. -/
def succDate (d : PlainDate) : PlainDate :=
  if d.day < daysInMonth d.year d.month then ⟨d.year, d.month, d.day + 1⟩
  else if d.month < 12 then ⟨d.year, d.month + 1, 1⟩
  else ⟨d.year + 1, 1, 1⟩

/-- `date.subtract({days: 1})` on a calendar date: step one day back. -/
def predDate (d : PlainDate) : PlainDate :=
  if 1 < d.day then ⟨d.year, d.month, d.day - 1⟩
  else if 1 < d.month then ⟨d.year, d.month - 1, daysInMonth d.year (d.month - 1)⟩
  else ⟨d.year - 1, 12, 31⟩

/-- `date.add({days: n})`. -/
def PlainDate.addDays (d : PlainDate) (n : Nat) : PlainDate := succDate^[n] d

/-- `date.subtract({days: n})`. -/
def PlainDate.subDays (d : PlainDate) (n : Nat) : PlainDate := predDate^[n] d

/-- JavaScript's `%` on integers: the remainder keeps the dividend's sign
(truncated division), unlike Lean's Euclidean `%`. -/
def jsMod (a b : Int) : Int := a.tmod b

/-- `date.add({days: n})` for a possibly negative `n` (Temporal accepts
signed day counts). -/
def PlainDate.addDaysInt (d : PlainDate) (n : Int) : PlainDate :=
  if 0 ≤ n then d.addDays n.toNat else d.subDays (-n).toNat

/-- Number of leap years strictly before year `y` (relative to year 0),
used only to linearise dates for weekday arithmetic. -/
def leapYearsBefore (y : Int) : Int := (y - 1) / 4 - (y - 1) / 100 + (y - 1) / 400

/-- Days before month `m` within a year of leap flag `leap`. -/
def daysBeforeMonth (leap : Bool) (m : Nat) : Nat :=
  match m with
  | 1 => 0
  | 2 => 31
  | 3 => if leap then 60 else 59
  | 4 => if leap then 91 else 90
  | 5 => if leap then 121 else 120
  | 6 => if leap then 152 else 151
  | 7 => if leap then 182 else 181
  | 8 => if leap then 213 else 212
  | 9 => if leap then 244 else 243
  | 10 => if leap then 274 else 273
  | 11 => if leap then 305 else 304
  | _ => if leap then 335 else 334

/-- Linear day index of a date (an arbitrary epoch); consecutive valid dates
have consecutive day numbers. -/
def dayNumber (d : PlainDate) : Int :=
  365 * d.year + leapYearsBefore d.year + daysBeforeMonth (isLeapYear d.year) d.month + d.day

/-- `Temporal.PlainDate.dayOfWeek`: ISO weekday, 1 = Monday .. 7 = Sunday.
Calibrated so that 2024-01-01 (a Monday) maps to 1. -/
def dayOfWeek (d : PlainDate) : Nat := ((dayNumber d - 2) % 7).toNat + 1

/-! ### Time model (embedding of Temporal.PlainTime / ZonedDateTime)

`buildDay` only reads wall-clock times via `toPlainTime()` and compares them
with `Temporal.PlainTime.compare` (lexicographic on the components).  We keep
hour/minute/second/millisecond; sub-millisecond precision is never used by
the library. A `ZonedDateTime` produced by `plainDate.toZonedDateTime` is the
wall-clock pair together with its IANA timezone name. -/

structure PlainTime where
  hour : Nat
  minute : Nat
  second : Nat
  millisecond : Nat
  deriving DecidableEq, Repr

/-- The range invariant of every real `Temporal.PlainTime`. -/
def PlainTime.Valid (t : PlainTime) : Prop :=
  t.hour ≤ 23 ∧ t.minute ≤ 59 ∧ t.second ≤ 59 ∧ t.millisecond ≤ 999

instance (t : PlainTime) : Decidable t.Valid := by
  unfold PlainTime.Valid; infer_instance

/-- Total milliseconds since the start of the day. -/
def PlainTime.toMs (t : PlainTime) : Nat :=
  ((t.hour * 60 + t.minute) * 60 + t.second) * 1000 + t.millisecond

/-- `Temporal.PlainTime.compare`: lexicographic component comparison. -/
def timeCompare (a b : PlainTime) : Ordering :=
  ((compare a.hour b.hour).then (compare a.minute b.minute)).then
    ((compare a.second b.second).then (compare a.millisecond b.millisecond))

/-- `'00:00:00'` -/
def startOfDayTime : PlainTime := ⟨0, 0, 0, 0⟩

/-- `'23:59:59.999'` -/
def endOfDayTime : PlainTime := ⟨23, 59, 59, 999⟩

structure ZonedDateTime where
  date : PlainDate
  time : PlainTime
  timeZone : String
  deriving DecidableEq, Repr

structure DateRange where
  start : ZonedDateTime
  «end» : ZonedDateTime
  deriving DecidableEq, Repr

/-! ### Accessors and shared view/option records (types.ts) -/

structure CalendarAccessor (T : Type) where
  getDate : T → PlainDate
  getStart : Option (T → ZonedDateTime)
  getEnd : Option (T → ZonedDateTime)

structure CalendarDay (T : Type) where
  date : PlainDate
  isCurrentMonth : Bool
  isToday : Bool
  items : List T
  deriving DecidableEq, Repr

/-- A week of the month grid (`CalendarWeek<T> = CalendarDay<T>[]`). -/
abbrev CalendarWeek (T : Type) := List (CalendarDay T)

structure CalendarMonth (T : Type) where
  weeks : List (CalendarWeek T)
  month : Int × Nat
  deriving DecidableEq, Repr

structure TimeSlot (T : Type) where
  hour : Nat
  minute : Nat
  time : PlainTime
  items : List T
  deriving DecidableEq, Repr

structure CalendarDayView (T : Type) where
  date : PlainDate
  isToday : Bool
  timeSlots : List (TimeSlot T)
  items : List T
  deriving DecidableEq, Repr

structure WeekDay (T : Type) where
  date : PlainDate
  isToday : Bool
  items : List T
  timeSlots : Option (List (TimeSlot T))
  deriving DecidableEq, Repr

structure CalendarWeekView (T : Type) where
  days : List (WeekDay T)
  weekStart : PlainDate
  weekEnd : PlainDate
  deriving DecidableEq, Repr

/-! ### `Map<string, T[]>` used for bucketing items by date.

`PlainDate.toString()` (the ISO string) is injective on dates, so keying the
association list by the `PlainDate` value itself is faithful.  JS `Map`
preserves insertion order and `set` on an existing key updates in place. -/

def lookupItems {T : Type} (m : List (PlainDate × List T)) (d : PlainDate) : Option (List T) :=
  (m.find? (fun p => p.1 == d)).map (fun p => p.2)

def mapSet {T : Type} (m : List (PlainDate × List T)) (d : PlainDate) (v : List T) :
    List (PlainDate × List T) :=
  if m.any (fun p => p.1 == d) then m.map (fun p => if p.1 == d then (p.1, v) else p)
  else m ++ [(d, v)]

def bucketItems {T : Type} (getDate : T → PlainDate) (data : List T) :
    List (PlainDate × List T) :=
  data.foldl
    (fun m item =>
      let key := getDate item
      let existing := (lookupItems m key).getD []
      mapSet m key (existing ++ [item]))
    []

/-! ### Date-Range Engine (utils/dateRanges.ts) -/

inductive DateRangeBounds where
  | calendar
  | strict
  deriving DecidableEq, Repr

structure MonthRangeOptions where
  weekStartsOn : Option Nat
  bounds : Option DateRangeBounds

/-- `getMonthDateRange(date, timeZone, options)`. -/
def getMonthDateRange (date : PlainDate) (timeZone : String) (options : MonthRangeOptions) :
    DateRange :=
  let weekStartsOn := options.weekStartsOn.getD 1
  let bounds := options.bounds.getD DateRangeBounds.calendar
  let firstOfMonth : PlainDate := ⟨date.year, date.month, 1⟩
  let lastOfMonth : PlainDate := ⟨date.year, date.month, daysInMonth date.year date.month⟩
  let range : PlainDate × PlainDate :=
    match bounds with
    | DateRangeBounds.calendar =>
        let startDayOfWeek := dayOfWeek firstOfMonth
        let daysToSubtract := (((startDayOfWeek : Int) - weekStartsOn + 7) % 7).toNat
        let start := firstOfMonth.subDays daysToSubtract
        let endDayOfWeek := dayOfWeek lastOfMonth
        let daysToAdd := jsMod ((weekStartsOn : Int) + 6 - endDayOfWeek) 7
        (start, lastOfMonth.addDaysInt daysToAdd)
    | DateRangeBounds.strict => (firstOfMonth, lastOfMonth)
  { start := ⟨range.1, startOfDayTime, timeZone⟩, «end» := ⟨range.2, endOfDayTime, timeZone⟩ }

/-- `getWeekDateRange(date, timeZone, options)`. -/
def getWeekDateRange (date : PlainDate) (timeZone : String) (weekStartsOnOpt : Option Nat) :
    DateRange :=
  let weekStartsOn := weekStartsOnOpt.getD 1
  let daysToSubtract := (((dayOfWeek date : Int) - weekStartsOn + 7) % 7).toNat
  let start := date.subDays daysToSubtract
  let stop := start.addDays 6
  { start := ⟨start, startOfDayTime, timeZone⟩, «end» := ⟨stop, endOfDayTime, timeZone⟩ }

/-- `getDayDateRange(date, timeZone)`. -/
def getDayDateRange (date : PlainDate) (timeZone : String) : DateRange :=
  { start := ⟨date, startOfDayTime, timeZone⟩, «end» := ⟨date, endOfDayTime, timeZone⟩ }

/-! ### Month grid builder (utils/buildMonth.ts)

The `while` loop becomes a fuel-indexed recursion: `none` means the fuel was
exhausted before the loop exited (the loop itself has no other way to stop
than its own condition/`break`). -/

structure BuildMonthOptions (T : Type) where
  weekStartsOn : Option Nat
  today : Option PlainDate
  data : List T
  accessor : Option (CalendarAccessor T)

/-- Length of `weeks[weeks.length - 1]` (0 when `weeks` is empty; the JS code
only reads it when `weeks` is non-empty). -/
def lastWeekLen {T : Type} (weeks : List (CalendarWeek T)) : Nat :=
  match weeks.getLast? with
  | none => 0
  | some w => w.length

/-- `if (weeks.length === 0 || last.length === 7) weeks.push([]); last.push(cell)`. -/
def pushCell {T : Type} (weeks : List (CalendarWeek T)) (c : CalendarDay T) :
    List (CalendarWeek T) :=
  match weeks.getLast? with
  | none => [[c]]
  | some w => if w.length = 7 then weeks ++ [[c]] else weeks.dropLast ++ [w ++ [c]]

/-- The `while` condition of `buildMonth`. -/
def monthLoopCond {T : Type} (month lastDay : Nat) (cur : PlainDate)
    (weeks : List (CalendarWeek T)) : Bool :=
  (cur.month != month) || decide (cur.day ≤ lastDay) || weeks.isEmpty ||
    decide (lastWeekLen weeks < 7)

/-- The cell for `currentDate` in the month grid. -/
def monthCell {T : Type} (itemsByDate : List (PlainDate × List T)) (month : Nat)
    (today : PlainDate) (currentDate : PlainDate) : CalendarDay T :=
  { date := currentDate
  , isCurrentMonth := currentDate.month == month
  , isToday := currentDate == today
  , items := (lookupItems itemsByDate currentDate).getD [] }

/-- The `while` loop of `buildMonth` (push cell, advance one day, `break`
after the 6th full week). -/
def buildMonthGo {T : Type} (month lastDay : Nat) (mkCell : PlainDate → CalendarDay T) :
    Nat → PlainDate → List (CalendarWeek T) → Option (List (CalendarWeek T))
  | fuel, currentDate, weeks =>
    if monthLoopCond month lastDay currentDate weeks then
      match fuel with
      | 0 => none
      | fuel + 1 =>
        let weeks1 := pushCell weeks (mkCell currentDate)
        let nextDate := succDate currentDate
        if 6 ≤ weeks1.length ∧ lastWeekLen weeks1 = 7 then some weeks1
        else buildMonthGo month lastDay mkCell fuel nextDate weeks1
    else some weeks

/-- `buildMonth(year, month, options)`; `now` stands for
`Temporal.Now.plainDateISO()` (the default for `options.today`). -/
def buildMonth {T : Type} (fuel : Nat) (now : PlainDate) (year : Int) (month : Nat)
    (options : BuildMonthOptions T) : Option (CalendarMonth T) :=
  let today := options.today.getD now
  let weekStartsOn := options.weekStartsOn.getD 1
  let firstOfMonth : PlainDate := ⟨year, month, 1⟩
  let lastOfMonth : PlainDate := ⟨year, month, daysInMonth year month⟩
  let itemsByDate :=
    match options.accessor with
    | none => []
    | some a => bucketItems a.getDate options.data
  let firstDayOfWeek := dayOfWeek firstOfMonth
  let daysToSubtract := (((firstDayOfWeek : Int) - weekStartsOn + 7) % 7).toNat
  let startDate := if 0 < daysToSubtract then firstOfMonth.subDays daysToSubtract else firstOfMonth
  (buildMonthGo month lastOfMonth.day (monthCell itemsByDate month today) fuel startDate []).map
    (fun weeks => { weeks := weeks, month := (year, month) })

/-! ### Day grid builder (utils/buildDay.ts) -/

structure BuildDayOptions (T : Type) where
  startHour : Option Nat
  endHour : Option Nat
  slotDuration : Option Nat
  today : Option PlainDate
  data : List T
  accessor : Option (CalendarAccessor T)

/-- The per-item membership test of one time slot (the body of the inner
`for` loop of `buildDay`). -/
def slotMember (itemTime slotStart : PlainTime) (nextHour nextMinute : Nat) : Bool :=
  let slotEndHour := if 24 ≤ nextHour then 0 else nextHour
  let slotEndMinute := if 24 ≤ nextHour then 0 else nextMinute
  let slotEnd : PlainTime := ⟨slotEndHour, slotEndMinute, 0, 0⟩
  let isAfterStart := timeCompare itemTime slotStart != Ordering.lt
  let isBeforeEnd :=
    if 24 ≤ nextHour then timeCompare itemTime slotEnd == Ordering.gt
    else timeCompare itemTime slotEnd == Ordering.lt
  isAfterStart && isBeforeEnd

/-- The slot-generation `while` loop of `buildDay`, fuel-indexed. -/
def buildSlotsGo {T : Type} (getStart : Option (T → ZonedDateTime)) (dayItems : List T)
    (endHour slotDuration : Nat) :
    Nat → Nat → Nat → Option (List (TimeSlot T))
  | fuel, currentHour, currentMinute =>
    if currentHour < endHour then
      match fuel with
      | 0 => none
      | fuel + 1 =>
        let slotStart : PlainTime := ⟨currentHour, currentMinute, 0, 0⟩
        let nextRaw := currentMinute + slotDuration
        let nextHour := if 60 ≤ nextRaw then currentHour + nextRaw / 60 else currentHour
        let nextMinute := if 60 ≤ nextRaw then nextRaw % 60 else nextRaw
        let slotItems :=
          match getStart with
          | none => []
          | some gs =>
              dayItems.filter (fun item => slotMember (gs item).time slotStart nextHour nextMinute)
        let slot : TimeSlot T := ⟨currentHour, currentMinute, slotStart, slotItems⟩
        match buildSlotsGo getStart dayItems endHour slotDuration fuel nextHour nextMinute with
        | none => none
        | some rest => some (slot :: rest)
    else some []

/-- `buildDay(date, options)`. -/
def buildDay {T : Type} (fuel : Nat) (now : PlainDate) (date : PlainDate)
    (options : BuildDayOptions T) : Option (CalendarDayView T) :=
  let startHour := options.startHour.getD 0
  let endHour := options.endHour.getD 24
  let slotDuration := options.slotDuration.getD 30
  let today := options.today.getD now
  let dayItems :=
    match options.accessor with
    | none => []
    | some a => options.data.filter (fun item => a.getDate item == date)
  let getStart := options.accessor.bind (fun a => a.getStart)
  (buildSlotsGo getStart dayItems endHour slotDuration fuel startHour 0).map
    (fun timeSlots =>
      { date := date, isToday := date == today, timeSlots := timeSlots, items := dayItems })

/-! ### Week grid builder (utils/buildWeek.ts) -/

structure BuildWeekOptions (T : Type) where
  weekStartsOn : Option Nat
  startHour : Option Nat
  endHour : Option Nat
  slotDuration : Option Nat
  today : Option PlainDate
  data : List T
  accessor : Option (CalendarAccessor T)

/-- `buildWeek(date, options)`. -/
def buildWeek {T : Type} (fuel : Nat) (now : PlainDate) (date : PlainDate)
    (options : BuildWeekOptions T) : Option (CalendarWeekView T) :=
  let weekStartsOn := options.weekStartsOn.getD 1
  let today := options.today.getD now
  let hasTimeSlots :=
    options.startHour.isSome && options.endHour.isSome && options.slotDuration.isSome
  let itemsByDate :=
    match options.accessor with
    | none => []
    | some a => bucketItems a.getDate options.data
  let daysToSubtract := (((dayOfWeek date : Int) - weekStartsOn + 7) % 7).toNat
  let weekStart := date.subDays daysToSubtract
  let mkDay : Nat → Option (WeekDay T) := fun i =>
    let currentDate := weekStart.addDays i
    let base : Option (List (TimeSlot T)) → WeekDay T := fun ts =>
      { date := currentDate
      , isToday := currentDate == today
      , items := (lookupItems itemsByDate currentDate).getD []
      , timeSlots := ts }
    if hasTimeSlots then
      match buildDay fuel now currentDate
          { startHour := options.startHour, endHour := options.endHour
          , slotDuration := options.slotDuration, today := some today
          , data := options.data, accessor := options.accessor } with
      | none => none
      | some dayView => some (base (some dayView.timeSlots))
    else some (base none)
  ((List.range 7).mapM mkDay).map
    (fun days => { days := days, weekStart := weekStart, weekEnd := weekStart.addDays 6 })

/-! ### Navigation steppers (utils.ts) -/

/-- `nextMonth(month)` on a `PlainYearMonth` (valid months `1..12`). -/
def nextMonth (month : Int × Nat) : Int × Nat :=
  if month.2 = 12 then (month.1 + 1, 1) else (month.1, month.2 + 1)

/-- `previousMonth(month)` on a `PlainYearMonth` (valid months `1..12`). -/
def previousMonth (month : Int × Nat) : Int × Nat :=
  if month.2 = 1 then (month.1 - 1, 12) else (month.1, month.2 - 1)

/-- `nextWeek(date) = date.add({weeks: 1})`. -/
def nextWeek (date : PlainDate) : PlainDate := date.addDays 7

/-- `previousWeek(date) = date.subtract({weeks: 1})`. -/
def previousWeek (date : PlainDate) : PlainDate := date.subDays 7

/-- `nextDay(date) = date.add({days: 1})`. -/
def nextDay (date : PlainDate) : PlainDate := date.addDays 1

/-- `previousDay(date) = date.subtract({days: 1})`. -/
def previousDay (date : PlainDate) : PlainDate := date.subDays 1

/-! ### Navigation/State Engine (core/calendar.ts)

The closure state of `createCalendar` becomes an explicit `EngineConfig`
(immutable per instance) plus a `CalendarState` threaded through the pure
mutation functions.  `SetStateResult.notified` records the argument of the
`onStateChange` invocation, if one happened. -/

structure MonthViewOptions (T : Type) where
  accessor : CalendarAccessor T
  weekStartsOn : Option Nat

structure WeekViewOptions (T : Type) where
  accessor : CalendarAccessor T
  weekStartsOn : Option Nat
  startHour : Option Nat
  endHour : Option Nat
  slotDuration : Option Nat

structure DayViewOptions (T : Type) where
  accessor : CalendarAccessor T
  startHour : Option Nat
  endHour : Option Nat
  slotDuration : Option Nat

structure CalendarViewOptions (T : Type) where
  month : Option (MonthViewOptions T)
  week : Option (WeekViewOptions T)
  day : Option (DayViewOptions T)

structure CalendarState where
  referenceDate : PlainDate
  currentView : Option String
  dateRange : DateRange
  deriving DecidableEq, Repr

structure PartialCalendarState where
  referenceDate : Option PlainDate
  currentView : Option String
  dateRange : Option DateRange
  deriving DecidableEq, Repr

structure CalendarOptions (T : Type) where
  data : List T
  views : CalendarViewOptions T
  timeZone : Option String
  state : Option PartialCalendarState
  hasOnStateChange : Bool

/-- `Object.keys(options.views)` for the three known view kinds. -/
def configuredViews {T : Type} (views : CalendarViewOptions T) : List String :=
  (if views.month.isSome then ["month"] else []) ++
    (if views.week.isSome then ["week"] else []) ++
      (if views.day.isSome then ["day"] else [])

structure EngineConfig (T : Type) where
  timeZone : String
  weekStartsOn : Nat
  defaultView : String
  options : CalendarOptions T

/-- The per-instance constants of `createCalendar`; `nowTimeZone` stands for
`Temporal.Now.timeZoneId()`. -/
def createConfig {T : Type} (nowTimeZone : String) (options : CalendarOptions T) :
    EngineConfig T :=
  { timeZone := options.timeZone.getD nowTimeZone
  , weekStartsOn :=
      ((options.views.month.bind (fun v => v.weekStartsOn)).orElse
        (fun _ => options.views.week.bind (fun v => v.weekStartsOn))).getD 1
  , defaultView := ((configuredViews options.views).head?).getD ""
  , options := options }

/-- `newState.currentView || defaultView` (JS `||`: both `undefined` and the
empty string fall back). -/
def resolveViewName (currentView : Option String) (defaultView : String) : String :=
  match currentView with
  | none => defaultView
  | some s => if s = "" then defaultView else s

/-- `computeDateRange(view, referenceDate, timeZone, weekStartsOn)` of
core/calendar.ts. -/
def computeDateRange (view : String) (referenceDate : PlainDate) (timeZone : String)
    (weekStartsOn : Nat) : DateRange :=
  if view = "month" then
    let firstOfMonth : PlainDate := ⟨referenceDate.year, referenceDate.month, 1⟩
    let lastOfMonth : PlainDate :=
      ⟨referenceDate.year, referenceDate.month, daysInMonth referenceDate.year referenceDate.month⟩
    let daysToSubtract := (((dayOfWeek firstOfMonth : Int) - weekStartsOn + 7) % 7).toNat
    let start := firstOfMonth.subDays daysToSubtract
    let daysToAdd := jsMod ((weekStartsOn : Int) + 6 - dayOfWeek lastOfMonth) 7
    let stop := lastOfMonth.addDaysInt daysToAdd
    { start := ⟨start, startOfDayTime, timeZone⟩, «end» := ⟨stop, endOfDayTime, timeZone⟩ }
  else if view = "week" then
    let daysToSubtract := (((dayOfWeek referenceDate : Int) - weekStartsOn + 7) % 7).toNat
    let start := referenceDate.subDays daysToSubtract
    let stop := start.addDays 6
    { start := ⟨start, startOfDayTime, timeZone⟩, «end» := ⟨stop, endOfDayTime, timeZone⟩ }
  else
    { start := ⟨referenceDate, startOfDayTime, timeZone⟩
    , «end» := ⟨referenceDate, endOfDayTime, timeZone⟩ }

/-- The initial store state of `createCalendar` (`now` stands for
`Temporal.Now.plainDateISO()`). -/
def createState {T : Type} (now : PlainDate) (cfg : EngineConfig T) : CalendarState :=
  let stateOverride := cfg.options.state
  let initialReferenceDate := (stateOverride.bind (fun s => s.referenceDate)).getD now
  let initialView : String :=
    resolveViewName (stateOverride.bind (fun s => s.currentView)) cfg.defaultView
  let initialDateRange :=
    computeDateRange initialView initialReferenceDate cfg.timeZone cfg.weekStartsOn
  { referenceDate := (stateOverride.bind (fun s => s.referenceDate)).getD initialReferenceDate
  , currentView :=
      match stateOverride.bind (fun s => s.currentView) with
      | some s => some s
      | none => some initialView
  , dateRange := (stateOverride.bind (fun s => s.dateRange)).getD initialDateRange }

/-- `setState`'s updater: a full replacement or a function to a partial patch. -/
inductive StateUpdater where
  | full (s : CalendarState)
  | patch (f : CalendarState → PartialCalendarState)

/-- `{...store.state, ...partialState}`. -/
def applyPatch (old : CalendarState) (p : PartialCalendarState) : CalendarState :=
  { referenceDate := p.referenceDate.getD old.referenceDate
  , currentView :=
      match p.currentView with
      | none => old.currentView
      | some v => some v
  , dateRange := p.dateRange.getD old.dateRange }

/-- A full replacement state viewed as a patch of all present fields. -/
def fullPatch (s : CalendarState) : PartialCalendarState :=
  { referenceDate := some s.referenceDate
  , currentView := s.currentView
  , dateRange := some s.dateRange }

structure SetStateResult where
  committed : CalendarState
  notified : List CalendarState
  deriving DecidableEq, Repr

/-- `setStateImpl(updater)`: merge, recompute `dateRange`, commit, notify. -/
def setStateImpl {T : Type} (cfg : EngineConfig T) (old : CalendarState)
    (updater : StateUpdater) : SetStateResult :=
  let partialState :=
    match updater with
    | StateUpdater.full s => fullPatch s
    | StateUpdater.patch f => f old
  let newState := applyPatch old partialState
  let currentView := resolveViewName newState.currentView cfg.defaultView
  let dateRange := computeDateRange currentView newState.referenceDate cfg.timeZone cfg.weekStartsOn
  let stateWithDateRange := { newState with dateRange := dateRange }
  { committed := stateWithDateRange
  , notified := if cfg.options.hasOnStateChange then [stateWithDateRange] else [] }

/-- The updater of `nextMonthImpl`. -/
def nextMonthUpdater : StateUpdater :=
  StateUpdater.patch fun old =>
    let current := (old.referenceDate.year, old.referenceDate.month)
    let nxt := nextMonth current
    { referenceDate := some ⟨nxt.1, nxt.2, 1⟩, currentView := none, dateRange := none }

/-- The updater of `previousMonthImpl`. -/
def previousMonthUpdater : StateUpdater :=
  StateUpdater.patch fun old =>
    let current := (old.referenceDate.year, old.referenceDate.month)
    let prev := previousMonth current
    { referenceDate := some ⟨prev.1, prev.2, 1⟩, currentView := none, dateRange := none }

def nextWeekUpdater : StateUpdater :=
  StateUpdater.patch fun old =>
    { referenceDate := some (nextWeek old.referenceDate), currentView := none, dateRange := none }

def previousWeekUpdater : StateUpdater :=
  StateUpdater.patch fun old =>
    { referenceDate := some (previousWeek old.referenceDate), currentView := none
    , dateRange := none }

def nextDayUpdater : StateUpdater :=
  StateUpdater.patch fun old =>
    { referenceDate := some (nextDay old.referenceDate), currentView := none, dateRange := none }

def previousDayUpdater : StateUpdater :=
  StateUpdater.patch fun old =>
    { referenceDate := some (previousDay old.referenceDate), currentView := none
    , dateRange := none }

def nextMonthImpl {T : Type} (cfg : EngineConfig T) (old : CalendarState) : SetStateResult :=
  setStateImpl cfg old nextMonthUpdater

def previousMonthImpl {T : Type} (cfg : EngineConfig T) (old : CalendarState) : SetStateResult :=
  setStateImpl cfg old previousMonthUpdater

def nextWeekImpl {T : Type} (cfg : EngineConfig T) (old : CalendarState) : SetStateResult :=
  setStateImpl cfg old nextWeekUpdater

def previousWeekImpl {T : Type} (cfg : EngineConfig T) (old : CalendarState) : SetStateResult :=
  setStateImpl cfg old previousWeekUpdater

def nextDayImpl {T : Type} (cfg : EngineConfig T) (old : CalendarState) : SetStateResult :=
  setStateImpl cfg old nextDayUpdater

def previousDayImpl {T : Type} (cfg : EngineConfig T) (old : CalendarState) : SetStateResult :=
  setStateImpl cfg old previousDayUpdater

/-- `getMonth(data = [])`: note it reads only its `data` argument, never
`options.data`. -/
def getMonthImpl {T : Type} (fuel : Nat) (cfg : EngineConfig T) (st : CalendarState)
    (now : PlainDate) (data : List T) : Except String (Option (CalendarMonth T)) :=
  match cfg.options.views.month with
  | none => Except.error "Month view not configured"
  | some monthView =>
      Except.ok (buildMonth fuel now st.referenceDate.year st.referenceDate.month
        { weekStartsOn := monthView.weekStartsOn, today := none, data := data
        , accessor := some monthView.accessor })

/-- `getWeek(data = [])`. -/
def getWeekImpl {T : Type} (fuel : Nat) (cfg : EngineConfig T) (st : CalendarState)
    (now : PlainDate) (data : List T) : Except String (Option (CalendarWeekView T)) :=
  match cfg.options.views.week with
  | none => Except.error "Week view not configured"
  | some weekView =>
      Except.ok (buildWeek fuel now st.referenceDate
        { weekStartsOn := weekView.weekStartsOn, startHour := weekView.startHour
        , endHour := weekView.endHour, slotDuration := weekView.slotDuration
        , today := none, data := data, accessor := some weekView.accessor })

/-- `getDay(data = [])`. -/
def getDayImpl {T : Type} (fuel : Nat) (cfg : EngineConfig T) (st : CalendarState)
    (now : PlainDate) (data : List T) : Except String (Option (CalendarDayView T)) :=
  match cfg.options.views.day with
  | none => Except.error "Day view not configured"
  | some dayView =>
      Except.ok (buildDay fuel now st.referenceDate
        { startHour := dayView.startHour, endHour := dayView.endHour
        , slotDuration := dayView.slotDuration, today := none, data := data
        , accessor := some dayView.accessor })

/-- The data `getTitle` hands to the external locale formatter, per view. -/
inductive CalendarTitle where
  | monthTitle (ym : Int × Nat)
  | weekTitle (weekStart weekEnd : PlainDate)
  | dayTitle (date : PlainDate)
  deriving DecidableEq, Repr

/-- `getTitle(view?)`: formats the configured view's grid or throws
`Unknown view` on an unrecognized name. -/
def getTitle {T : Type} (fuel : Nat) (cfg : EngineConfig T) (st : CalendarState)
    (now : PlainDate) (view : Option String) : Except String (Option CalendarTitle) :=
  let effectiveView := view.getD (st.currentView.getD cfg.defaultView)
  if effectiveView = "month" then
    (getMonthImpl fuel cfg st now []).map
      (fun om => om.map (fun m => CalendarTitle.monthTitle m.month))
  else if effectiveView = "week" then
    (getWeekImpl fuel cfg st now []).map
      (fun ow => ow.map (fun w => CalendarTitle.weekTitle w.weekStart w.weekEnd))
  else if effectiveView = "day" then
    (getDayImpl fuel cfg st now []).map
      (fun od => od.map (fun d => CalendarTitle.dayTitle d.date))
  else Except.error ("Unknown view: " ++ effectiveView)

/-- `next(view?)`: the `switch` has no `default` case, so an unrecognized
view name falls through with no state change and no notification. -/
def next {T : Type} (cfg : EngineConfig T) (st : CalendarState) (view : Option String) :
    SetStateResult :=
  let effectiveView := view.getD (st.currentView.getD cfg.defaultView)
  if effectiveView = "month" then nextMonthImpl cfg st
  else if effectiveView = "week" then nextWeekImpl cfg st
  else if effectiveView = "day" then nextDayImpl cfg st
  else { committed := st, notified := [] }

/-- `previous(view?)`. -/
def previous {T : Type} (cfg : EngineConfig T) (st : CalendarState) (view : Option String) :
    SetStateResult :=
  let effectiveView := view.getD (st.currentView.getD cfg.defaultView)
  if effectiveView = "month" then previousMonthImpl cfg st
  else if effectiveView = "week" then previousWeekImpl cfg st
  else if effectiveView = "day" then previousDayImpl cfg st
  else { committed := st, notified := [] }

/-- `goToDate(date)`. -/
def goToDate {T : Type} (cfg : EngineConfig T) (st : CalendarState) (date : PlainDate) :
    SetStateResult :=
  setStateImpl cfg st
    (StateUpdater.patch fun _ =>
      { referenceDate := some date, currentView := none, dateRange := none })

/-- `goToMonth(year, month)` (snaps the day to 1). -/
def goToMonth {T : Type} (cfg : EngineConfig T) (st : CalendarState) (year : Int)
    (month : Nat) : SetStateResult :=
  setStateImpl cfg st
    (StateUpdater.patch fun _ =>
      { referenceDate := some ⟨year, month, 1⟩, currentView := none, dateRange := none })

/-- `goToToday()` (`now` stands for `Temporal.Now.plainDateISO()`). -/
def goToToday {T : Type} (cfg : EngineConfig T) (st : CalendarState) (now : PlainDate) :
    SetStateResult :=
  setStateImpl cfg st
    (StateUpdater.patch fun _ =>
      { referenceDate := some now, currentView := none, dateRange := none })

/-! ### A small concrete instance (for exercising the engine) -/

/-- An accessor for `Unit`-typed demo items: every item falls on the given
date and starts at the given wall-clock time. -/
def unitAccessor (date : PlainDate) (time : PlainTime) : CalendarAccessor Unit :=
  { getDate := fun _ => date
  , getStart := some (fun _ => ⟨date, time, "UTC"⟩)
  , getEnd := none }

/-- A month-only calendar configuration holding one `Unit` item on
2024-01-15, with a change callback registered. -/
def demoOptions : CalendarOptions Unit :=
  { data := [()]
  , views :=
      { month := some { accessor := unitAccessor ⟨2024, 1, 15⟩ ⟨10, 0, 0, 0⟩
                      , weekStartsOn := some 1 }
      , week := none
      , day := none }
  , timeZone := some "UTC"
  , state := none
  , hasOnStateChange := true }

def demoConfig : EngineConfig Unit := createConfig "UTC" demoOptions

def demoState : CalendarState := createState ⟨2024, 1, 15⟩ demoConfig

/-- The `BuildMonthOptions` that `getMonth(data)` hands to `buildMonth` for
the demo calendar, as a function of the `data` argument. -/
def demoBuildOptions (data : List Unit) : BuildMonthOptions Unit :=
  { weekStartsOn := some 1, today := none, data := data
  , accessor := some (unitAccessor ⟨2024, 1, 15⟩ ⟨10, 0, 0, 0⟩) }

/-! ### The padded month window: closed forms for the 42 grid dates -/

/-- `(firstOfMonth.dayOfWeek - weekStartsOn + 7) % 7`: the number of leading
padding days of the month grid. -/
def monthPad (year : Int) (month : Nat) (weekStartsOn : Nat) : Nat :=
  (((dayOfWeek ⟨year, month, 1⟩ : Int) - weekStartsOn + 7) % 7).toNat

/-- The week-aligned start of the month grid. -/
def gridStart (year : Int) (month : Nat) (weekStartsOn : Nat) : PlainDate :=
  (⟨year, month, 1⟩ : PlainDate).subDays (monthPad year month weekStartsOn)

/-! ### Running the `buildMonth` loop

`weeksAfter cell i` is the nested week structure after `i` loop iterations;
`weekShape i` is its week-length profile, a function of `i` alone. -/

def weeksAfter {T : Type} (cell : Nat → CalendarDay T) : Nat → List (CalendarWeek T)
  | 0 => []
  | i + 1 => pushCell (weeksAfter cell i) (cell i)

def pushLen (ls : List Nat) : List Nat :=
  match ls.getLast? with
  | none => [1]
  | some k => if k = 7 then ls ++ [1] else ls.dropLast ++ [k + 1]

def weekShape : Nat → List Nat
  | 0 => []
  | i + 1 => pushLen (weekShape i)

/-- The item bucket `buildMonth` builds before the loop. -/
def monthItemsByDate {T : Type} (opts : BuildMonthOptions T) : List (PlainDate × List T) :=
  match opts.accessor with
  | none => []
  | some a => bucketItems a.getDate opts.data

/-- The `i`-th cell of the `buildMonth` grid for target `(y, m)`. -/
def monthCellAt {T : Type} (now : PlainDate) (y : Int) (m : Nat)
    (opts : BuildMonthOptions T) (j : Nat) : CalendarDay T :=
  monthCell (monthItemsByDate opts) m (opts.today.getD now)
    ((gridStart y m (opts.weekStartsOn.getD 1)).addDays j)

/-- The slot loop with `slotDuration = 0` (or any other value that never
advances the clock past `endHour`) runs forever: no fuel suffices. -/
def slotsTerminate (startHour endHour slotDuration : Nat) : Prop :=
  ∃ fuel,
    (buildSlotsGo (T := Unit) none [] endHour slotDuration fuel startHour 0).isSome

/-! ## Theorems -/

/-! ### Basic date lemmas -/

theorem isLeapYear_iff (y : Int) :
    isLeapYear y = true ↔ ((y % 4 = 0 ∧ ¬(y % 100 = 0)) ∨ y % 400 = 0) := by
  simp [isLeapYear]

theorem leapYearsBefore_succ (y : Int) :
    leapYearsBefore (y + 1) = leapYearsBefore y + (if isLeapYear y then 1 else 0) := by
  simp only [leapYearsBefore, isLeapYear]
  split <;> rename_i h <;> simp_all <;> omega

theorem daysInMonthOf_pos (leap : Bool) (m : Nat) : 1 ≤ daysInMonthOf leap m := by
  unfold daysInMonthOf
  split <;> first | (split <;> omega) | omega

theorem daysInMonthOf_ge_28 (leap : Bool) (m : Nat) : 28 ≤ daysInMonthOf leap m := by
  unfold daysInMonthOf
  split <;> first | (split <;> omega) | omega

theorem daysInMonthOf_le_31 (leap : Bool) (m : Nat) : daysInMonthOf leap m ≤ 31 := by
  unfold daysInMonthOf
  split <;> first | (split <;> omega) | omega

theorem daysBeforeMonth_succ (leap : Bool) (m : Nat) (h1 : 1 ≤ m) (h2 : m ≤ 11) :
    daysBeforeMonth leap (m + 1) = daysBeforeMonth leap m + daysInMonthOf leap m := by
  interval_cases m <;> cases leap <;> simp [daysBeforeMonth, daysInMonthOf]

theorem daysBeforeMonth_12_add (leap : Bool) :
    daysBeforeMonth leap 12 + daysInMonthOf leap 12 = if leap then 366 else 365 := by
  cases leap <;> simp [daysBeforeMonth, daysInMonthOf]

theorem dayNumber_succDate (d : PlainDate) (hv : d.Valid) :
    dayNumber (succDate d) = dayNumber d + 1 := by
  obtain ⟨y, m, dd⟩ := d
  obtain ⟨hm1, hm2, hd1, hd2⟩ := hv
  simp only at hm1 hm2 hd1 hd2
  unfold succDate
  split
  · unfold dayNumber
    dsimp only
    push_cast
    ring
  · rename_i h
    dsimp only at h
    split
    · rename_i hm
      dsimp only at hm
      have hday : dd = daysInMonthOf (isLeapYear y) m := by
        simp only [daysInMonth] at hd2 h; omega
      have hstep := daysBeforeMonth_succ (isLeapYear y) m hm1 (by omega)
      unfold dayNumber
      dsimp only
      rw [hstep, hday]
      push_cast
      ring
    · rename_i hm
      dsimp only at hm
      have hm12 : m = 12 := by omega
      subst hm12
      have hday : dd = daysInMonthOf (isLeapYear y) 12 := by
        simp only [daysInMonth] at hd2 h; omega
      have h365 := daysBeforeMonth_12_add (isLeapYear y)
      have hlb := leapYearsBefore_succ y
      unfold dayNumber
      dsimp only
      rw [hlb, hday]
      have hdb1 : daysBeforeMonth (isLeapYear (y + 1)) 1 = 0 := rfl
      rw [hdb1]
      cases hL : isLeapYear y <;> simp [hL] at h365 hlb ⊢ <;> omega

theorem valid_succDate (d : PlainDate) (hv : d.Valid) : (succDate d).Valid := by
  obtain ⟨y, m, dd⟩ := d
  obtain ⟨hm1, hm2, hd1, hd2⟩ := hv
  simp only at hm1 hm2 hd1 hd2
  have hp : 1 ≤ daysInMonth y (m + 1) := daysInMonthOf_pos _ _
  have hp2 : daysInMonth (y + 1) 1 = 31 := rfl
  unfold succDate PlainDate.Valid
  split
  · rename_i h
    dsimp only at h ⊢
    omega
  · rename_i h
    dsimp only at h
    split
    · rename_i hm
      dsimp only at hm ⊢
      omega
    · rename_i hm
      dsimp only at hm ⊢
      omega

theorem valid_predDate (d : PlainDate) (hv : d.Valid) : (predDate d).Valid := by
  obtain ⟨y, m, dd⟩ := d
  obtain ⟨hm1, hm2, hd1, hd2⟩ := hv
  simp only at hm1 hm2 hd1 hd2
  have hp : 1 ≤ daysInMonth y (m - 1) := daysInMonthOf_pos _ _
  have hp2 : daysInMonth (y - 1) 12 = 31 := rfl
  unfold predDate PlainDate.Valid
  split
  · rename_i h
    dsimp only at h ⊢
    omega
  · rename_i h
    dsimp only at h
    split
    · rename_i hm
      dsimp only at hm ⊢
      omega
    · rename_i hm
      dsimp only at hm ⊢
      omega

theorem succDate_predDate (d : PlainDate) (hv : d.Valid) : succDate (predDate d) = d := by
  obtain ⟨y, m, dd⟩ := d
  obtain ⟨hm1, hm2, hd1, hd2⟩ := hv
  simp only at hm1 hm2 hd1 hd2
  unfold predDate
  split
  · rename_i h
    dsimp only at h
    unfold succDate
    have hlt : dd - 1 < daysInMonth y m := by omega
    dsimp only
    simp only [hlt, if_true]
    have : dd - 1 + 1 = dd := by omega
    rw [this]
  · rename_i h
    dsimp only at h
    have hday : dd = 1 := by omega
    split
    · rename_i hm
      dsimp only at hm
      unfold succDate
      dsimp only
      simp only [lt_irrefl, if_false]
      have hlt : m - 1 < 12 := by omega
      simp only [hlt, if_true]
      have h1 : m - 1 + 1 = m := by omega
      rw [hday, h1]
    · rename_i hm
      dsimp only at hm
      have hmon : m = 1 := by omega
      unfold succDate
      dsimp only
      have h31 : daysInMonth (y - 1) 12 = 31 := rfl
      simp only [h31, lt_irrefl, if_false]
      have : y - 1 + 1 = y := by omega
      rw [this, hday, hmon]

theorem dayNumber_predDate (d : PlainDate) (hv : d.Valid) :
    dayNumber (predDate d) = dayNumber d - 1 := by
  have h1 := dayNumber_succDate (predDate d) (valid_predDate d hv)
  rw [succDate_predDate d hv] at h1
  omega

theorem valid_addDays (d : PlainDate) (hv : d.Valid) (n : Nat) : (d.addDays n).Valid := by
  induction n with
  | zero => simpa [PlainDate.addDays] using hv
  | succ k ih =>
      have : d.addDays (k + 1) = succDate (d.addDays k) := by
        simp [PlainDate.addDays, Function.iterate_succ_apply']
      rw [this]
      exact valid_succDate _ ih

theorem dayNumber_addDays (d : PlainDate) (hv : d.Valid) (n : Nat) :
    dayNumber (d.addDays n) = dayNumber d + n := by
  induction n with
  | zero => simp [PlainDate.addDays]
  | succ k ih =>
      have : d.addDays (k + 1) = succDate (d.addDays k) := by
        simp [PlainDate.addDays, Function.iterate_succ_apply']
      rw [this, dayNumber_succDate _ (valid_addDays d hv k), ih]
      push_cast
      ring

theorem valid_subDays (d : PlainDate) (hv : d.Valid) (n : Nat) : (d.subDays n).Valid := by
  induction n with
  | zero => simpa [PlainDate.subDays] using hv
  | succ k ih =>
      have : d.subDays (k + 1) = predDate (d.subDays k) := by
        simp [PlainDate.subDays, Function.iterate_succ_apply']
      rw [this]
      exact valid_predDate _ ih

theorem dayNumber_subDays (d : PlainDate) (hv : d.Valid) (n : Nat) :
    dayNumber (d.subDays n) = dayNumber d - n := by
  induction n with
  | zero => simp [PlainDate.subDays]
  | succ k ih =>
      have : d.subDays (k + 1) = predDate (d.subDays k) := by
        simp [PlainDate.subDays, Function.iterate_succ_apply']
      rw [this, dayNumber_predDate _ (valid_subDays d hv k), ih]
      push_cast
      ring

theorem addDays_subDays (d : PlainDate) (hv : d.Valid) (k : Nat) :
    (d.subDays k).addDays k = d := by
  induction k with
  | zero => simp [PlainDate.addDays, PlainDate.subDays]
  | succ n ih =>
      have h1 : d.subDays (n + 1) = predDate (d.subDays n) := by
        simp [PlainDate.subDays, Function.iterate_succ_apply']
      have h2 : ∀ e : PlainDate, e.addDays (n + 1) = (succDate e).addDays n := by
        intro e
        simp [PlainDate.addDays, Function.iterate_succ_apply]
      rw [h1, h2, succDate_predDate _ (valid_subDays d hv n)]
      exact ih

theorem addDays_add (d : PlainDate) (a b : Nat) :
    d.addDays (a + b) = (d.addDays a).addDays b := by
  simp [PlainDate.addDays, Nat.add_comm a b, Function.iterate_add_apply]

theorem dayOfWeek_bounds (d : PlainDate) : 1 ≤ dayOfWeek d ∧ dayOfWeek d ≤ 7 := by
  unfold dayOfWeek
  have h1 : (0 : Int) ≤ (dayNumber d - 2) % 7 := Int.emod_nonneg _ (by norm_num)
  have h2 : (dayNumber d - 2) % 7 < 7 := Int.emod_lt_of_pos _ (by norm_num)
  omega

theorem dayOfWeek_int (d : PlainDate) :
    (dayOfWeek d : Int) = (dayNumber d - 2) % 7 + 1 := by
  unfold dayOfWeek
  have h1 : (0 : Int) ≤ (dayNumber d - 2) % 7 := Int.emod_nonneg _ (by norm_num)
  push_cast
  omega

theorem compare_nat_cases (x y : Nat) :
    (x < y ∧ compare x y = Ordering.lt) ∨ (x = y ∧ compare x y = Ordering.eq) ∨
      (y < x ∧ compare x y = Ordering.gt) := by
  rcases lt_trichotomy x y with h | h | h
  · exact Or.inl ⟨h, compare_lt_iff_lt.mpr h⟩
  · exact Or.inr (Or.inl ⟨h, compare_eq_iff_eq.mpr h⟩)
  · exact Or.inr (Or.inr ⟨h, compare_gt_iff_gt.mpr h⟩)

theorem timeCompare_eq_compare_toMs (a b : PlainTime) (ha : a.Valid) (hb : b.Valid) :
    timeCompare a b = compare a.toMs b.toMs := by
  obtain ⟨ah, am, asec, ams⟩ := a
  obtain ⟨bh, bm, bsec, bms⟩ := b
  obtain ⟨ha1, ha2, ha3, ha4⟩ := ha
  obtain ⟨hb1, hb2, hb3, hb4⟩ := hb
  simp only at ha1 ha2 ha3 ha4 hb1 hb2 hb3 hb4
  unfold timeCompare PlainTime.toMs
  dsimp only
  rcases compare_nat_cases ah bh with ⟨h1, e1⟩ | ⟨h1, e1⟩ | ⟨h1, e1⟩ <;>
    rcases compare_nat_cases am bm with ⟨h2, e2⟩ | ⟨h2, e2⟩ | ⟨h2, e2⟩ <;>
      rcases compare_nat_cases asec bsec with ⟨h3, e3⟩ | ⟨h3, e3⟩ | ⟨h3, e3⟩ <;>
        rcases compare_nat_cases ams bms with ⟨h4, e4⟩ | ⟨h4, e4⟩ | ⟨h4, e4⟩ <;>
          simp only [e1, e2, e3, e4, Ordering.then] <;>
          first
            | exact (compare_lt_iff_lt.mpr (by omega)).symm
            | exact (compare_eq_iff_eq.mpr (by omega)).symm
            | exact (compare_gt_iff_gt.mpr (by omega)).symm

theorem monthPad_le (y : Int) (m wso : Nat) : monthPad y m wso ≤ 6 := by
  unfold monthPad
  have h1 : (0 : Int) ≤ ((dayOfWeek ⟨y, m, 1⟩ : Int) - wso + 7) % 7 :=
    Int.emod_nonneg _ (by norm_num)
  have h2 : ((dayOfWeek ⟨y, m, 1⟩ : Int) - wso + 7) % 7 < 7 :=
    Int.emod_lt_of_pos _ (by norm_num)
  omega

theorem firstOfMonth_valid (y : Int) (m : Nat) (hm1 : 1 ≤ m) (hm2 : m ≤ 12) :
    (⟨y, m, 1⟩ : PlainDate).Valid :=
  ⟨hm1, hm2, le_refl 1, daysInMonthOf_pos _ _⟩

theorem lastOfMonth_valid (y : Int) (m : Nat) (hm1 : 1 ≤ m) (hm2 : m ≤ 12) :
    (⟨y, m, daysInMonth y m⟩ : PlainDate).Valid :=
  ⟨hm1, hm2, daysInMonthOf_pos _ _, le_refl _⟩

theorem addDays_within_month (y : Int) (m : Nat) (j : Nat)
    (hj : j < daysInMonth y m) : (⟨y, m, 1⟩ : PlainDate).addDays j = ⟨y, m, 1 + j⟩ := by
  induction j with
  | zero => simp [PlainDate.addDays]
  | succ k ih =>
      have hk : k < daysInMonth y m := by omega
      have hstep : (⟨y, m, 1⟩ : PlainDate).addDays (k + 1) =
          succDate ((⟨y, m, 1⟩ : PlainDate).addDays k) := by
        simp [PlainDate.addDays, Function.iterate_succ_apply']
      rw [hstep, ih hk]
      unfold succDate
      dsimp only
      have hlt : 1 + k < daysInMonth y m := by omega
      rw [if_pos hlt]
      simp only [PlainDate.mk.injEq, eq_self_iff_true, true_and, and_true]
      omega

theorem succDate_lastOfMonth (y : Int) (m : Nat) (hm1 : 1 ≤ m) (hm2 : m ≤ 12) :
    succDate ⟨y, m, daysInMonth y m⟩ =
      ⟨(nextMonth (y, m)).1, (nextMonth (y, m)).2, 1⟩ := by
  unfold succDate nextMonth
  dsimp only
  rw [if_neg (lt_irrefl _)]
  by_cases h : m = 12
  · subst h
    norm_num
  · have hlt : m < 12 := by omega
    rw [if_pos hlt, if_neg h]

theorem predDate_firstOfMonth (y : Int) (m : Nat) (hm1 : 1 ≤ m) (hm2 : m ≤ 12) :
    predDate ⟨y, m, 1⟩ =
      ⟨(previousMonth (y, m)).1, (previousMonth (y, m)).2,
        daysInMonth (previousMonth (y, m)).1 (previousMonth (y, m)).2⟩ := by
  unfold predDate previousMonth
  dsimp only
  rw [if_neg (lt_irrefl _)]
  by_cases h : m = 1
  · subst h
    norm_num
    rfl
  · have hlt : 1 < m := by omega
    rw [if_pos hlt, if_neg h]

theorem subDays_firstOfMonth (y : Int) (m : Nat) (hm1 : 1 ≤ m) (hm2 : m ≤ 12) (k : Nat)
    (hk1 : 1 ≤ k)
    (hk2 : k ≤ daysInMonth (previousMonth (y, m)).1 (previousMonth (y, m)).2) :
    (⟨y, m, 1⟩ : PlainDate).subDays k =
      ⟨(previousMonth (y, m)).1, (previousMonth (y, m)).2,
        daysInMonth (previousMonth (y, m)).1 (previousMonth (y, m)).2 + 1 - k⟩ := by
  induction k with
  | zero => omega
  | succ n ih =>
      by_cases hn : n = 0
      · subst hn
        have hstep : (⟨y, m, 1⟩ : PlainDate).subDays 1 = predDate ⟨y, m, 1⟩ := by
          simp [PlainDate.subDays]
        rw [hstep, predDate_firstOfMonth y m hm1 hm2]
        simp only [PlainDate.mk.injEq, eq_self_iff_true, true_and, and_true]
        omega
      · have hstep : (⟨y, m, 1⟩ : PlainDate).subDays (n + 1) =
            predDate ((⟨y, m, 1⟩ : PlainDate).subDays n) := by
          simp [PlainDate.subDays, Function.iterate_succ_apply']
        rw [hstep, ih (by omega) (by omega)]
        unfold predDate
        dsimp only
        have hgt : 1 < daysInMonth (previousMonth (y, m)).1 (previousMonth (y, m)).2 + 1 - n := by
          omega
        rw [if_pos hgt]
        simp only [PlainDate.mk.injEq, eq_self_iff_true, true_and, and_true]
        omega

theorem addDays_subDays_le (d : PlainDate) (hv : d.Valid) (pad i : Nat) (h : i ≤ pad) :
    (d.subDays pad).addDays i = d.subDays (pad - i) := by
  have hsplit : d.subDays pad = (d.subDays (pad - i)).subDays i := by
    unfold PlainDate.subDays
    rw [← Function.iterate_add_apply]
    congr 1
    omega
  rw [hsplit, addDays_subDays _ (valid_subDays d hv _)]

theorem addDays_subDays_ge (d : PlainDate) (hv : d.Valid) (pad i : Nat) (h : pad ≤ i) :
    (d.subDays pad).addDays i = d.addDays (i - pad) := by
  obtain ⟨j, rfl⟩ : ∃ j, i = pad + j := ⟨i - pad, by omega⟩
  rw [addDays_add, addDays_subDays d hv]
  congr 1
  omega

theorem previousMonth_bounds (y : Int) (m : Nat) (hm1 : 1 ≤ m) (hm2 : m ≤ 12) :
    1 ≤ (previousMonth (y, m)).2 ∧ (previousMonth (y, m)).2 ≤ 12 ∧
      (previousMonth (y, m)).2 ≠ m := by
  unfold previousMonth
  dsimp only
  by_cases h : m = 1 <;> simp [h] <;> omega

theorem nextMonth_bounds (y : Int) (m : Nat) (hm1 : 1 ≤ m) (hm2 : m ≤ 12) :
    1 ≤ (nextMonth (y, m)).2 ∧ (nextMonth (y, m)).2 ≤ 12 ∧ (nextMonth (y, m)).2 ≠ m := by
  unfold nextMonth
  dsimp only
  by_cases h : m = 12 <;> simp [h] <;> omega

/-- Closed form for every one of the 42 dates of the padded month window:
leading cells are the tail of the previous month, then the whole target
month, then the head of the next month. -/
theorem gridDate_closed_form (y : Int) (m : Nat) (hm1 : 1 ≤ m) (hm2 : m ≤ 12) (pad : Nat)
    (hpad : pad ≤ 6) (i : Nat) (hi : i < 42) :
    (i < pad →
      ((⟨y, m, 1⟩ : PlainDate).subDays pad).addDays i =
        ⟨(previousMonth (y, m)).1, (previousMonth (y, m)).2,
          daysInMonth (previousMonth (y, m)).1 (previousMonth (y, m)).2 + 1 - (pad - i)⟩) ∧
    (pad ≤ i → i < pad + daysInMonth y m →
      ((⟨y, m, 1⟩ : PlainDate).subDays pad).addDays i = ⟨y, m, 1 + (i - pad)⟩) ∧
    (pad + daysInMonth y m ≤ i →
      ((⟨y, m, 1⟩ : PlainDate).subDays pad).addDays i =
        ⟨(nextMonth (y, m)).1, (nextMonth (y, m)).2, 1 + (i - pad - daysInMonth y m)⟩) := by
  have hvfirst := firstOfMonth_valid y m hm1 hm2
  have hprev := previousMonth_bounds y m hm1 hm2
  have hnext := nextMonth_bounds y m hm1 hm2
  have hdimp : 28 ≤ daysInMonth (previousMonth (y, m)).1 (previousMonth (y, m)).2 :=
    daysInMonthOf_ge_28 _ _
  have hdimn : 28 ≤ daysInMonth (nextMonth (y, m)).1 (nextMonth (y, m)).2 :=
    daysInMonthOf_ge_28 _ _
  have hdim : 28 ≤ daysInMonth y m := daysInMonthOf_ge_28 _ _
  have hdim31 : daysInMonth y m ≤ 31 := daysInMonthOf_le_31 _ _
  refine ⟨?_, ?_, ?_⟩
  · intro hlt
    rw [addDays_subDays_le _ hvfirst pad i (by omega)]
    exact subDays_firstOfMonth y m hm1 hm2 (pad - i) (by omega) (by omega)
  · intro h1 h2
    rw [addDays_subDays_ge _ hvfirst pad i h1]
    exact addDays_within_month y m (i - pad) (by omega)
  · intro h1
    rw [addDays_subDays_ge _ hvfirst pad i (by omega)]
    have hfull : (⟨y, m, 1⟩ : PlainDate).addDays (daysInMonth y m) =
        ⟨(nextMonth (y, m)).1, (nextMonth (y, m)).2, 1⟩ := by
      have hstep : (⟨y, m, 1⟩ : PlainDate).addDays (daysInMonth y m) =
          succDate ((⟨y, m, 1⟩ : PlainDate).addDays (daysInMonth y m - 1)) := by
        have hd : daysInMonth y m = (daysInMonth y m - 1) + 1 := by omega
        rw [hd]
        simp [PlainDate.addDays, Function.iterate_succ_apply']
      rw [hstep, addDays_within_month y m (daysInMonth y m - 1) (by omega)]
      have hd : 1 + (daysInMonth y m - 1) = daysInMonth y m := by omega
      rw [hd]
      exact succDate_lastOfMonth y m hm1 hm2
    calc (⟨y, m, 1⟩ : PlainDate).addDays (i - pad)
        = ((⟨y, m, 1⟩ : PlainDate).addDays (daysInMonth y m)).addDays
            (i - pad - daysInMonth y m) := by
          rw [← addDays_add]
          exact congrArg (fun n => (⟨y, m, 1⟩ : PlainDate).addDays n) (by omega)
      _ = ⟨(nextMonth (y, m)).1, (nextMonth (y, m)).2, 1 + (i - pad - daysInMonth y m)⟩ := by
          rw [hfull]
          exact addDays_within_month (nextMonth (y, m)).1 (nextMonth (y, m)).2
            (i - pad - daysInMonth y m) (by omega)

/-- Within the window, a cell's month number equals the target month exactly
on the target month's cells, and there its closed form identifies the date. -/
theorem gridDate_month_iff (y : Int) (m : Nat) (hm1 : 1 ≤ m) (hm2 : m ≤ 12) (pad : Nat)
    (hpad : pad ≤ 6) (i : Nat) (hi : i < 42) :
    ((((⟨y, m, 1⟩ : PlainDate).subDays pad).addDays i).month = m ↔
      pad ≤ i ∧ i < pad + daysInMonth y m) := by
  have hcf := gridDate_closed_form y m hm1 hm2 pad hpad i hi
  have hprev := previousMonth_bounds y m hm1 hm2
  have hnext := nextMonth_bounds y m hm1 hm2
  constructor
  · intro hmon
    by_contra hcon
    rcases Nat.lt_or_ge i pad with hlt | hge
    · rw [hcf.1 hlt] at hmon
      exact hprev.2.2 hmon
    · have hhi : pad + daysInMonth y m ≤ i := by omega
      rw [hcf.2.2 hhi] at hmon
      exact hnext.2.2 hmon
  · intro ⟨h1, h2⟩
    rw [hcf.2.1 h1 h2]

/-- Every cell of the window never satisfies the loop's exit condition
(`month = target ∧ day > last day of target month`). -/
theorem gridDate_no_exit (y : Int) (m : Nat) (hm1 : 1 ≤ m) (hm2 : m ≤ 12) (pad : Nat)
    (hpad : pad ≤ 6) (i : Nat) (hi : i < 42) :
    ¬((((⟨y, m, 1⟩ : PlainDate).subDays pad).addDays i).month = m ∧
      daysInMonth y m < (((⟨y, m, 1⟩ : PlainDate).subDays pad).addDays i).day) := by
  rintro ⟨hmon, hday⟩
  have hcf := gridDate_closed_form y m hm1 hm2 pad hpad i hi
  have hiff := gridDate_month_iff y m hm1 hm2 pad hpad i hi
  obtain ⟨h1, h2⟩ := hiff.mp hmon
  rw [hcf.2.1 h1 h2] at hday
  dsimp only at hday
  omega

/-- Window-cell validity. -/
theorem gridDate_valid (y : Int) (m : Nat) (hm1 : 1 ≤ m) (hm2 : m ≤ 12) (pad : Nat)
    (i : Nat) : (((⟨y, m, 1⟩ : PlainDate).subDays pad).addDays i).Valid :=
  valid_addDays _ (valid_subDays _ (firstOfMonth_valid y m hm1 hm2) pad) i

theorem pushCell_map_length {T : Type} (weeks : List (CalendarWeek T)) (c : CalendarDay T) :
    (pushCell weeks c).map List.length = pushLen (weeks.map List.length) := by
  unfold pushCell pushLen
  cases hw : weeks.getLast? with
  | none =>
      have he : weeks = [] := List.getLast?_eq_none_iff.mp hw
      subst he
      simp
  | some w =>
      have hmap : (weeks.map List.length).getLast? = some w.length := by
        rw [List.getLast?_map, hw]
        rfl
      rw [hmap]
      dsimp only
      by_cases h7 : w.length = 7
      · rw [if_pos h7, if_pos h7]
        simp
      · rw [if_neg h7, if_neg h7]
        simp [List.map_dropLast]

theorem weeksAfter_map_length {T : Type} (cell : Nat → CalendarDay T) (i : Nat) :
    (weeksAfter cell i).map List.length = weekShape i := by
  induction i with
  | zero => rfl
  | succ k ih =>
      unfold weeksAfter weekShape
      rw [pushCell_map_length, ih]

theorem pushCell_flatten {T : Type} (weeks : List (CalendarWeek T)) (c : CalendarDay T) :
    (pushCell weeks c).flatten = weeks.flatten ++ [c] := by
  unfold pushCell
  cases hw : weeks.getLast? with
  | none =>
      have he : weeks = [] := List.getLast?_eq_none_iff.mp hw
      subst he
      simp
  | some w =>
      have hne : weeks ≠ [] := by
        intro he
        subst he
        simp at hw
      dsimp only
      by_cases h7 : w.length = 7
      · rw [if_pos h7]
        simp
      · rw [if_neg h7]
        have hg : weeks.getLast hne = w := by
          have hq := List.getLast?_eq_getLast weeks hne
          rw [hq] at hw
          exact Option.some.inj hw
        have hw2 : weeks.dropLast ++ [w] = weeks := by
          rw [← hg]
          exact List.dropLast_append_getLast hne
        calc (weeks.dropLast ++ [w ++ [c]]).flatten
            = (weeks.dropLast ++ [w]).flatten ++ [c] := by simp
          _ = weeks.flatten ++ [c] := by rw [hw2]

theorem weeksAfter_flatten {T : Type} (cell : Nat → CalendarDay T) (i : Nat) :
    (weeksAfter cell i).flatten = (List.range i).map cell := by
  induction i with
  | zero => rfl
  | succ k ih =>
      unfold weeksAfter
      rw [pushCell_flatten, ih, List.range_succ, List.map_append]
      rfl

theorem lastWeekLen_eq_shape {T : Type} (cell : Nat → CalendarDay T) (i : Nat) :
    lastWeekLen (weeksAfter cell i) = ((weekShape i).getLast?).getD 0 := by
  unfold lastWeekLen
  rw [← weeksAfter_map_length cell i, List.getLast?_map]
  cases (weeksAfter cell i).getLast? <;> rfl

theorem length_weeksAfter {T : Type} (cell : Nat → CalendarDay T) (i : Nat) :
    (weeksAfter cell i).length = (weekShape i).length := by
  rw [← weeksAfter_map_length cell i, List.length_map]

theorem weekShape_break :
    ∀ i, i < 43 →
      ((6 ≤ (weekShape i).length ∧ ((weekShape i).getLast?).getD 0 = 7) ↔ i = 42) := by
  decide

theorem weekShape_42 : weekShape 42 = [7, 7, 7, 7, 7, 7] := by decide

/-- The loop never exits through its own condition inside the window, so with
fuel `42 - i` it runs to the 42-cell break from any intermediate state. -/
theorem buildMonthGo_run {T : Type} (month lastDay : Nat) (mkCell : PlainDate → CalendarDay T)
    (start : PlainDate)
    (Hdate : ∀ i, i < 42 →
      ¬((start.addDays i).month = month ∧ lastDay < (start.addDays i).day)) :
    ∀ k i, i + k = 42 → 0 < k →
      buildMonthGo month lastDay mkCell k (start.addDays i)
          (weeksAfter (fun j => mkCell (start.addDays j)) i)
        = some (weeksAfter (fun j => mkCell (start.addDays j)) 42) := by
  intro k
  induction k with
  | zero =>
      intro i h hpos
      omega
  | succ n ih =>
      intro i hik _
      have hi : i < 42 := by omega
      have hstep : start.addDays (i + 1) = succDate (start.addDays i) := by
        simp [PlainDate.addDays, Function.iterate_succ_apply']
      have hcond : monthLoopCond month lastDay (start.addDays i)
          (weeksAfter (fun j => mkCell (start.addDays j)) i) = true := by
        have hne := Hdate i hi
        unfold monthLoopCond
        by_cases hmm : (start.addDays i).month = month
        · have hday : (start.addDays i).day ≤ lastDay := by
            by_contra hc
            exact hne ⟨hmm, by omega⟩
          simp [hday]
        · have hb : ((start.addDays i).month != month) = true := by
            simp [bne_iff_ne]
            exact hmm
          simp [hb]
      rw [buildMonthGo]
      rw [if_pos hcond]
      have hpush : pushCell (weeksAfter (fun j => mkCell (start.addDays j)) i)
          (mkCell (start.addDays i)) = weeksAfter (fun j => mkCell (start.addDays j)) (i + 1) :=
        rfl
      dsimp only
      rw [hpush]
      have hshape := weekShape_break (i + 1) (by omega)
      by_cases hbr : i + 1 = 42
      · have hc : 6 ≤ (weeksAfter (fun j => mkCell (start.addDays j)) (i + 1)).length ∧
            lastWeekLen (weeksAfter (fun j => mkCell (start.addDays j)) (i + 1)) = 7 := by
          rw [length_weeksAfter, lastWeekLen_eq_shape]
          exact hshape.mpr hbr
        rw [if_pos hc, hbr]
      · have hc : ¬(6 ≤ (weeksAfter (fun j => mkCell (start.addDays j)) (i + 1)).length ∧
            lastWeekLen (weeksAfter (fun j => mkCell (start.addDays j)) (i + 1)) = 7) := by
          rw [length_weeksAfter, lastWeekLen_eq_shape]
          intro hcc
          exact hbr (hshape.mp hcc)
        rw [if_neg hc, ← hstep]
        exact ih (i + 1) (by omega) (by omega)

theorem startDate_if_eq (d : PlainDate) (pad : Nat) :
    (if 0 < pad then d.subDays pad else d) = d.subDays pad := by
  by_cases h : 0 < pad
  · rw [if_pos h]
  · rw [if_neg h]
    have h0 : pad = 0 := by omega
    rw [h0]
    rfl

theorem buildMonthGo_from_start {T : Type} (y : Int) (m : Nat) (hm1 : 1 ≤ m) (hm2 : m ≤ 12)
    (mkCell : PlainDate → CalendarDay T) (pad : Nat) (hpad : pad ≤ 6) :
    buildMonthGo m (daysInMonth y m) mkCell 42 ((⟨y, m, 1⟩ : PlainDate).subDays pad) []
      = some (weeksAfter
          (fun j => mkCell (((⟨y, m, 1⟩ : PlainDate).subDays pad).addDays j)) 42) := by
  have Hdate : ∀ i, i < 42 →
      ¬((((⟨y, m, 1⟩ : PlainDate).subDays pad).addDays i).month = m ∧
        daysInMonth y m < (((⟨y, m, 1⟩ : PlainDate).subDays pad).addDays i).day) :=
    fun i hi => gridDate_no_exit y m hm1 hm2 pad hpad i hi
  have h := buildMonthGo_run m (daysInMonth y m) mkCell ((⟨y, m, 1⟩ : PlainDate).subDays pad)
    Hdate 42 0 rfl (by omega)
  exact h

/-- `buildMonth` with fuel 42 always completes (the loop `break`s at the 42nd
cell) and returns exactly the 42-cell window grid. -/
theorem buildMonth_run {T : Type} (now : PlainDate) (y : Int) (m : Nat) (hm1 : 1 ≤ m)
    (hm2 : m ≤ 12) (opts : BuildMonthOptions T) :
    buildMonth 42 now y m opts =
      some { weeks := weeksAfter (monthCellAt now y m opts) 42, month := (y, m) } := by
  unfold buildMonth
  dsimp only
  rw [startDate_if_eq]
  rw [buildMonthGo_from_start y m hm1 hm2 _ _
    (by exact monthPad_le y m (opts.weekStartsOn.getD 1))]
  rfl

/-- Fuel monotonicity of the `buildMonth` loop: once it finishes, more fuel
does not change the result. -/
theorem buildMonthGo_mono {T : Type} (month lastDay : Nat) (mkCell : PlainDate → CalendarDay T) :
    ∀ fuel fuel2 cur weeks res, fuel ≤ fuel2 →
      buildMonthGo month lastDay mkCell fuel cur weeks = some res →
      buildMonthGo month lastDay mkCell fuel2 cur weeks = some res := by
  intro fuel
  induction fuel with
  | zero =>
      intro fuel2 cur weeks res _ h
      rw [buildMonthGo.eq_def] at h
      dsimp only at h
      by_cases hc : monthLoopCond month lastDay cur weeks = true
      · rw [if_pos hc] at h
        exact absurd h (by simp)
      · rw [if_neg hc] at h
        rw [buildMonthGo.eq_def]
        dsimp only
        rw [if_neg hc]
        exact h
  | succ n ih =>
      intro fuel2 cur weeks res hle h
      rw [buildMonthGo.eq_def] at h
      dsimp only at h
      by_cases hc : monthLoopCond month lastDay cur weeks = true
      · rw [if_pos hc] at h
        obtain ⟨f2, rfl⟩ : ∃ f2, fuel2 = f2 + 1 := ⟨fuel2 - 1, by omega⟩
        rw [buildMonthGo.eq_def]
        dsimp only
        rw [if_pos hc]
        by_cases hbr : 6 ≤ (pushCell weeks (mkCell cur)).length ∧
            lastWeekLen (pushCell weeks (mkCell cur)) = 7
        · rw [if_pos hbr] at h ⊢
          exact h
        · rw [if_neg hbr] at h ⊢
          exact ih f2 _ _ _ (by omega) h
      · rw [if_neg hc] at h
        rw [buildMonthGo.eq_def]
        dsimp only
        rw [if_neg hc]
        exact h

/-- Counting the elements of `List.range n` inside `[a, b)`. -/
theorem countP_range_interval (a : Nat) :
    ∀ n b, b ≤ n →
      ((List.range n).countP (fun i => decide (a ≤ i ∧ i < b))) = b - a := by
  intro n
  induction n with
  | zero =>
      intro b hb
      simp
      omega
  | succ k ih =>
      intro b hb
      rw [List.range_succ, List.countP_append]
      by_cases hbk : b ≤ k
      · rw [ih b hbk]
        have hzero : List.countP (fun i => decide (a ≤ i ∧ i < b)) [k] = 0 := by
          have hp : decide (a ≤ k ∧ k < b) = false := by
            simp only [decide_eq_false_iff_not]
            omega
          simp [List.countP_cons, hp] <;> omega
        rw [hzero]
        omega
      · have hb1 : b = k + 1 := by omega
        subst hb1
        have hcong : (List.range k).countP (fun i => decide (a ≤ i ∧ i < k + 1))
            = (List.range k).countP (fun i => decide (a ≤ i ∧ i < k)) := by
          apply List.countP_congr
          intro x hx
          have hxk : x < k := List.mem_range.mp hx
          constructor
          · intro hc
            simp only [decide_eq_true_eq] at hc ⊢
            omega
          · intro hc
            simp only [decide_eq_true_eq] at hc ⊢
            omega
        rw [hcong, ih k (le_refl k)]
        by_cases hak : a ≤ k
        · have hone : List.countP (fun i => decide (a ≤ i ∧ i < k + 1)) [k] = 1 := by
            have hp : decide (a ≤ k ∧ k < k + 1) = true := by
              simp only [decide_eq_true_eq]
              omega
            simp [List.countP_cons, hp] <;> omega
          rw [hone]
          omega
        · have hzero : List.countP (fun i => decide (a ≤ i ∧ i < k + 1)) [k] = 0 := by
            have hp : decide (a ≤ k ∧ k < k + 1) = false := by
              simp only [decide_eq_false_iff_not]
              omega
            simp [List.countP_cons, hp] <;> omega
          rw [hzero]
          omega

/-- The head of the `k`-th week of a 7-per-week grid is the `7k`-th cell. -/
theorem head_of_week {α : Type} :
    ∀ (ws : List (List α)), (∀ w ∈ ws, w.length = 7) →
      ∀ k, (hk : k < ws.length) → (ws[k]).head? = ws.flatten[7 * k]? := by
  intro ws
  induction ws with
  | nil =>
      intro _ k hk
      simp at hk
  | cons w rest ih =>
      intro h7 k hk
      have hw : w.length = 7 := h7 w (by simp)
      cases k with
      | zero =>
          have hh : (w ++ rest.flatten)[0]? = w[0]? :=
            List.getElem?_append_left (by omega)
          simp only [List.flatten_cons, Nat.mul_zero, hh, List.getElem_cons_zero]
          exact List.head?_eq_getElem? w
      | succ kk =>
          have h2 : ∀ v ∈ rest, v.length = 7 := fun v hv => h7 v (by simp [hv])
          have hkk : kk < rest.length := by simpa using hk
          have hge : w.length ≤ 7 * (kk + 1) := by omega
          simp only [List.flatten_cons, List.getElem_cons_succ]
          rw [List.getElem?_append_right hge, hw]
          have hidx : 7 * (kk + 1) - 7 = 7 * kk := by omega
          rw [hidx]
          exact ih h2 kk hkk

/-! ### Running the `buildDay` slot loop -/

theorem buildSlotsGo_terminates {T : Type} (getStart : Option (T → ZonedDateTime))
    (dayItems : List T) (endHour dur : Nat) (hdur : 1 ≤ dur) :
    ∀ fuel h mnt, mnt ≤ 59 → 60 * endHour ≤ 60 * h + mnt + fuel →
      (buildSlotsGo getStart dayItems endHour dur fuel h mnt).isSome := by
  intro fuel
  induction fuel with
  | zero =>
      intro h mnt hmn hf
      rw [buildSlotsGo.eq_def]
      dsimp only
      have hnc : ¬h < endHour := by omega
      rw [if_neg hnc]
      rfl
  | succ n ih =>
      intro h mnt hmn hf
      rw [buildSlotsGo.eq_def]
      dsimp only
      by_cases hc : h < endHour
      · rw [if_pos hc]
        by_cases h60 : 60 ≤ mnt + dur
        · rw [if_pos h60, if_pos h60]
          have hsum : 60 * (h + (mnt + dur) / 60) + (mnt + dur) % 60 = 60 * h + mnt + dur := by
            omega
          have hrec := ih (h + (mnt + dur) / 60) ((mnt + dur) % 60) (by omega) (by omega)
          cases hgo : buildSlotsGo getStart dayItems endHour dur n (h + (mnt + dur) / 60)
              ((mnt + dur) % 60) with
          | none => rw [hgo] at hrec; simp at hrec
          | some rest => rfl
        · rw [if_neg h60, if_neg h60]
          have hrec := ih h (mnt + dur) (by omega) (by omega)
          cases hgo : buildSlotsGo getStart dayItems endHour dur n h (mnt + dur) with
          | none => rw [hgo] at hrec; simp at hrec
          | some rest => rfl
      · rw [if_neg hc]
        rfl

theorem slot_membership_final (t : PlainTime) (ht : t.Valid) (h mnt nh nm : Nat)
    (hh : h ≤ 23) (hm : mnt ≤ 59) (h24 : 24 ≤ nh) :
    slotMember t ⟨h, mnt, 0, 0⟩ nh nm = true ↔
      (PlainTime.toMs ⟨h, mnt, 0, 0⟩ ≤ t.toMs ∧ 0 < t.toMs) := by
  unfold slotMember
  dsimp only
  rw [if_pos h24, if_pos h24, if_pos h24]
  have hvs : (⟨h, mnt, 0, 0⟩ : PlainTime).Valid := by
    unfold PlainTime.Valid
    dsimp only
    omega
  have hv0 : (⟨0, 0, 0, 0⟩ : PlainTime).Valid := by decide
  rw [timeCompare_eq_compare_toMs t ⟨h, mnt, 0, 0⟩ ht hvs,
    timeCompare_eq_compare_toMs t ⟨0, 0, 0, 0⟩ ht hv0]
  have h0 : PlainTime.toMs ⟨0, 0, 0, 0⟩ = 0 := rfl
  rw [h0]
  rcases compare_nat_cases t.toMs (PlainTime.toMs ⟨h, mnt, 0, 0⟩) with ⟨hx, ex⟩ | ⟨hx, ex⟩ | ⟨hx, ex⟩ <;>
    rcases compare_nat_cases t.toMs 0 with ⟨hz, ez⟩ | ⟨hz, ez⟩ | ⟨hz, ez⟩ <;>
      rw [ex, ez] <;> simp +decide <;> omega

theorem slot_membership_normal (t : PlainTime) (ht : t.Valid) (h mnt nh nm : Nat)
    (hh : h ≤ 23) (hm : mnt ≤ 59) (h24 : ¬24 ≤ nh) (hnh : nh ≤ 23) (hnm : nm ≤ 59) :
    slotMember t ⟨h, mnt, 0, 0⟩ nh nm = true ↔
      (PlainTime.toMs ⟨h, mnt, 0, 0⟩ ≤ t.toMs ∧ t.toMs < PlainTime.toMs ⟨nh, nm, 0, 0⟩) := by
  unfold slotMember
  dsimp only
  rw [if_neg h24, if_neg h24, if_neg h24]
  have hvs : (⟨h, mnt, 0, 0⟩ : PlainTime).Valid := by
    unfold PlainTime.Valid
    dsimp only
    omega
  have hve : (⟨nh, nm, 0, 0⟩ : PlainTime).Valid := by
    unfold PlainTime.Valid
    dsimp only
    omega
  rw [timeCompare_eq_compare_toMs t ⟨h, mnt, 0, 0⟩ ht hvs,
    timeCompare_eq_compare_toMs t ⟨nh, nm, 0, 0⟩ ht hve]
  rcases compare_nat_cases t.toMs (PlainTime.toMs ⟨h, mnt, 0, 0⟩) with ⟨hx, ex⟩ | ⟨hx, ex⟩ | ⟨hx, ex⟩ <;>
    rcases compare_nat_cases t.toMs (PlainTime.toMs ⟨nh, nm, 0, 0⟩) with ⟨hz, ez⟩ | ⟨hz, ez⟩ | ⟨hz, ez⟩ <;>
      rw [ex, ez] <;> simp +decide <;> omega

/-- Full characterization of the slot loop when `endHour = 24` and
`slotDuration ≥ 1`: it completes, produces at least one slot; the last slot
admits exactly the items with start time in `[slot start, midnight)` other
than exactly-midnight, and every earlier slot uses the half-open rule
`[slot start, slot start + slotDuration)`. -/
theorem buildSlotsGo_spec {T : Type} (gs : T → ZonedDateTime) (dayItems : List T)
    (dur : Nat) (hdur : 1 ≤ dur)
    (hvt : ∀ item ∈ dayItems, ((gs item).time).Valid) :
    ∀ fuel h mnt, h < 24 → mnt ≤ 59 → 1440 ≤ 60 * h + mnt + fuel →
      ∃ slots, buildSlotsGo (some gs) dayItems 24 dur fuel h mnt = some slots ∧
        slots ≠ [] ∧
        (∀ L, slots.getLast? = some L → ∀ item ∈ dayItems,
          (item ∈ L.items ↔
            L.time.toMs ≤ ((gs item).time).toMs ∧ 0 < ((gs item).time).toMs)) ∧
        (∀ S ∈ slots.dropLast, ∀ item ∈ dayItems,
          (item ∈ S.items ↔
            S.time.toMs ≤ ((gs item).time).toMs ∧
              ((gs item).time).toMs < S.time.toMs + dur * 60000)) := by
  intro fuel
  induction fuel with
  | zero =>
      intro h mnt hh hm hf
      omega
  | succ n ih =>
      intro h mnt hh hm hf
      rw [buildSlotsGo.eq_def]
      dsimp only
      rw [if_pos hh]
      by_cases h60 : 60 ≤ mnt + dur
      · rw [if_pos h60, if_pos h60]
        by_cases h24 : h + (mnt + dur) / 60 < 24
        · obtain ⟨rest, hrest, hrne, hrlast, hrearly⟩ :=
            ih (h + (mnt + dur) / 60) ((mnt + dur) % 60) h24 (by omega) (by omega)
          rw [hrest]
          refine ⟨_, rfl, by simp, ?_, ?_⟩
          · intro L hL item hitem
            cases rest with
            | nil => exact absurd rfl hrne
            | cons r rs =>
                rw [List.getLast?_cons_cons] at hL
                exact hrlast L hL item hitem
          · intro S hS item hitem
            cases rest with
            | nil => exact absurd rfl hrne
            | cons r rs =>
                have hdl : ∀ c : TimeSlot T, (c :: r :: rs).dropLast = c :: (r :: rs).dropLast :=
                  fun c => rfl
                rw [hdl] at hS
                rcases List.mem_cons.mp hS with hS1 | hS2
                · subst hS1
                  dsimp only
                  rw [List.mem_filter]
                  have hub : PlainTime.toMs ⟨h + (mnt + dur) / 60, (mnt + dur) % 60, 0, 0⟩ =
                      PlainTime.toMs ⟨h, mnt, 0, 0⟩ + dur * 60000 := by
                    unfold PlainTime.toMs
                    dsimp only
                    omega
                  rw [slot_membership_normal ((gs item).time) (hvt item hitem) h mnt _ _
                    (by omega) hm (by omega) (by omega) (by omega), hub]
                  constructor
                  · intro hc
                    exact hc.2
                  · intro hc
                    exact ⟨hitem, hc⟩
                · exact hrearly S hS2 item hitem
        · have hrec0 : buildSlotsGo (some gs) dayItems 24 dur n (h + (mnt + dur) / 60)
              ((mnt + dur) % 60) = some [] := by
            rw [buildSlotsGo.eq_def]
            dsimp only
            rw [if_neg (by omega)]
          rw [hrec0]
          refine ⟨_, rfl, by simp, ?_, ?_⟩
          · intro L hL item hitem
            have hLs : L = { hour := h, minute := mnt
                           , time := ⟨h, mnt, 0, 0⟩
                           , items := dayItems.filter (fun item =>
                               slotMember (gs item).time ⟨h, mnt, 0, 0⟩
                                 (h + (mnt + dur) / 60) ((mnt + dur) % 60)) } := by
              simpa using hL.symm
            subst hLs
            dsimp only
            rw [List.mem_filter]
            rw [slot_membership_final ((gs item).time) (hvt item hitem) h mnt _ _
              (by omega) hm (by omega)]
            constructor
            · intro hc
              exact hc.2
            · intro hc
              exact ⟨hitem, hc⟩
          · intro S hS item hitem
            simp at hS
      · rw [if_neg h60, if_neg h60]
        have h24 : h < 24 := hh
        obtain ⟨rest, hrest, hrne, hrlast, hrearly⟩ :=
          ih h (mnt + dur) h24 (by omega) (by omega)
        rw [hrest]
        refine ⟨_, rfl, by simp, ?_, ?_⟩
        · intro L hL item hitem
          cases rest with
          | nil => exact absurd rfl hrne
          | cons r rs =>
              rw [List.getLast?_cons_cons] at hL
              exact hrlast L hL item hitem
        · intro S hS item hitem
          cases rest with
          | nil => exact absurd rfl hrne
          | cons r rs =>
              have hdl : ∀ c : TimeSlot T, (c :: r :: rs).dropLast = c :: (r :: rs).dropLast :=
                fun c => rfl
              rw [hdl] at hS
              rcases List.mem_cons.mp hS with hS1 | hS2
              · subst hS1
                dsimp only
                rw [List.mem_filter]
                have hub : PlainTime.toMs ⟨h, mnt + dur, 0, 0⟩ =
                    PlainTime.toMs ⟨h, mnt, 0, 0⟩ + dur * 60000 := by
                  unfold PlainTime.toMs
                  dsimp only
                  omega
                rw [slot_membership_normal ((gs item).time) (hvt item hitem) h mnt _ _
                  (by omega) hm (by omega) (by omega) (by omega), hub]
                constructor
                · intro hc
                  exact hc.2
                · intro hc
                  exact ⟨hitem, hc⟩
              · exact hrearly S hS2 item hitem

/-! ### Grid-level corollaries of the `buildMonth` run -/

theorem buildMonth_grid {T : Type} (now : PlainDate) (y : Int) (m : Nat) (hm1 : 1 ≤ m)
    (hm2 : m ≤ 12) (opts : BuildMonthOptions T) :
    ∃ g : CalendarMonth T, buildMonth 42 now y m opts = some g ∧
      g.weeks.map List.length = [7, 7, 7, 7, 7, 7] ∧
      g.weeks.flatten = (List.range 42).map (monthCellAt now y m opts) := by
  refine ⟨_, buildMonth_run now y m hm1 hm2 opts, ?_, ?_⟩
  · dsimp only
    rw [weeksAfter_map_length, weekShape_42]
  · dsimp only
    rw [weeksAfter_flatten]

theorem weeks_length_of_map_length {α : Type} (ws : List (List α))
    (h : ws.map List.length = [7, 7, 7, 7, 7, 7]) :
    ws.length = 6 ∧ ∀ w ∈ ws, w.length = 7 := by
  constructor
  · have := congrArg List.length h
    simpa using this
  · intro w hw
    have hmem : w.length ∈ ws.map List.length := List.mem_map_of_mem _ hw
    rw [h] at hmem
    simpa using hmem

theorem monthCellAt_date {T : Type} (now : PlainDate) (y : Int) (m : Nat)
    (opts : BuildMonthOptions T) (j : Nat) :
    (monthCellAt now y m opts j).date =
      ((⟨y, m, 1⟩ : PlainDate).subDays (monthPad y m (opts.weekStartsOn.getD 1))).addDays j :=
  rfl

/-! ### Weekday congruence helpers -/

theorem dow_subPad_mod (base : PlainDate) (hvb : base.Valid) (wso : Nat) (hw : wso ≤ 6) :
    dayOfWeek (base.subDays ((((dayOfWeek base : Int)) - wso + 7) % 7).toNat) % 7 = wso := by
  have hpadnn : (0 : Int) ≤ ((dayOfWeek base : Int) - wso + 7) % 7 :=
    Int.emod_nonneg _ (by norm_num)
  have hpadlt : ((dayOfWeek base : Int) - wso + 7) % 7 < 7 :=
    Int.emod_lt_of_pos _ (by norm_num)
  have hpadc : (((((dayOfWeek base : Int)) - wso + 7) % 7).toNat : Int)
      = ((dayOfWeek base : Int) - wso + 7) % 7 := Int.toNat_of_nonneg hpadnn
  have hdn := dayNumber_subDays base hvb ((((dayOfWeek base : Int)) - wso + 7) % 7).toNat
  have hd1 := dayOfWeek_int base
  have hd2 := dayOfWeek_int (base.subDays ((((dayOfWeek base : Int)) - wso + 7) % 7).toNat)
  have hb1 := dayOfWeek_bounds base
  have hb2 := dayOfWeek_bounds (base.subDays ((((dayOfWeek base : Int)) - wso + 7) % 7).toNat)
  omega

theorem dow_addPad_mod (base : PlainDate) (hvb : base.Valid) (wso : Nat) (hw : wso ≤ 6) :
    dayOfWeek (base.addDays (((wso : Int) + 6 - dayOfWeek base) % 7).toNat) % 7
      = (wso + 6) % 7 := by
  have hpadnn : (0 : Int) ≤ ((wso : Int) + 6 - dayOfWeek base) % 7 :=
    Int.emod_nonneg _ (by norm_num)
  have hpadlt : ((wso : Int) + 6 - dayOfWeek base) % 7 < 7 :=
    Int.emod_lt_of_pos _ (by norm_num)
  have hpadc : ((((wso : Int) + 6 - dayOfWeek base) % 7).toNat : Int)
      = ((wso : Int) + 6 - dayOfWeek base) % 7 := Int.toNat_of_nonneg hpadnn
  have hdn := dayNumber_addDays base hvb (((wso : Int) + 6 - dayOfWeek base) % 7).toNat
  have hd1 := dayOfWeek_int base
  have hd2 := dayOfWeek_int (base.addDays (((wso : Int) + 6 - dayOfWeek base) % 7).toNat)
  have hb1 := dayOfWeek_bounds base
  have hb2 := dayOfWeek_bounds (base.addDays (((wso : Int) + 6 - dayOfWeek base) % 7).toNat)
  omega

theorem dow_mod_addWeeks (e : PlainDate) (hve : e.Valid) (k : Nat) :
    dayOfWeek (e.addDays (7 * k)) % 7 = dayOfWeek e % 7 := by
  have h1 := dayOfWeek_int e
  have h2 := dayOfWeek_int (e.addDays (7 * k))
  have h3 := dayNumber_addDays e hve (7 * k)
  have hb1 := dayOfWeek_bounds e
  have hb2 := dayOfWeek_bounds (e.addDays (7 * k))
  omega

theorem dayNumber_lastOfMonth (y : Int) (m : Nat) (hm1 : 1 ≤ m) (hm2 : m ≤ 12) :
    dayNumber ⟨y, m, daysInMonth y m⟩
      = dayNumber ⟨y, m, 1⟩ + (daysInMonth y m - 1 : Nat) := by
  have h1 := dayNumber_addDays ⟨y, m, 1⟩ (firstOfMonth_valid y m hm1 hm2) (daysInMonth y m - 1)
  rw [addDays_within_month y m (daysInMonth y m - 1)
    (by have := daysInMonthOf_pos (isLeapYear y) m; simp only [daysInMonth]; omega)] at h1
  have hd : 1 + (daysInMonth y m - 1) = daysInMonth y m := by
    have := daysInMonthOf_pos (isLeapYear y) m
    simp only [daysInMonth]
    omega
  rw [hd] at h1
  exact h1

/-! ### Claim theorems: the month grid -/

/-- C10: for every year, month, weekStartsOn, today, item list and accessor,
`buildMonth` returns exactly 6 weeks of 7 days each (42 cells) whose dates
are the consecutive calendar days starting at the padded week-aligned start
(first of month minus `(firstOfMonth.dayOfWeek - weekStartsOn + 7) % 7`
days), regardless of how many rows the target month actually needs. -/
theorem claim_C10 {T : Type} (now : PlainDate) (y : Int) (m : Nat)
    (hm : 1 ≤ m ∧ m ≤ 12) (opts : BuildMonthOptions T) :
    ∃ g : CalendarMonth T, buildMonth 42 now y m opts = some g ∧
      g.weeks.length = 6 ∧
      (∀ w ∈ g.weeks, w.length = 7) ∧
      g.weeks.flatten.map (fun c => c.date) =
        (List.range 42).map (fun i =>
          ((⟨y, m, 1⟩ : PlainDate).subDays
            (monthPad y m (opts.weekStartsOn.getD 1))).addDays i) := by
  obtain ⟨g, hg, hshape, hflat⟩ := buildMonth_grid now y m hm.1 hm.2 opts
  obtain ⟨hlen, h7⟩ := weeks_length_of_map_length g.weeks hshape
  refine ⟨g, hg, hlen, h7, ?_⟩
  rw [hflat, List.map_map]
  rfl

/-- C10 witness: the January 2024 grid over the unit item type. -/
theorem claim_C10_witness :
    ∃ g : CalendarMonth Unit,
      buildMonth 42 ⟨2024, 6, 1⟩ 2024 1
        (⟨some 1, none, [], none⟩ : BuildMonthOptions Unit) = some g ∧
      g.weeks.length = 6 ∧
      (∀ w ∈ g.weeks, w.length = 7) ∧
      g.weeks.flatten.map (fun c => c.date) =
        (List.range 42).map (fun i =>
          ((⟨2024, 1, 1⟩ : PlainDate).subDays
            (monthPad 2024 1 ((some 1 : Option Nat).getD 1))).addDays i) :=
  claim_C10 ⟨2024, 6, 1⟩ 2024 1 (by decide) ⟨some 1, none, [], none⟩

/-- C3: for every year and month (and any weekStartsOn, today, items and
accessor), `buildMonth` returns between 4 and 6 weeks of exactly 7 days, and
the number of cells with `isCurrentMonth = true` equals the calendar length
of the month (28/29/30/31, leap years included). -/
theorem claim_C3 {T : Type} (now : PlainDate) (y : Int) (m : Nat)
    (hm : 1 ≤ m ∧ m ≤ 12) (opts : BuildMonthOptions T) :
    ∃ g : CalendarMonth T, buildMonth 42 now y m opts = some g ∧
      4 ≤ g.weeks.length ∧ g.weeks.length ≤ 6 ∧
      (∀ w ∈ g.weeks, w.length = 7) ∧
      (g.weeks.flatten.filter (fun c => c.isCurrentMonth)).length = daysInMonth y m := by
  obtain ⟨g, hg, hshape, hflat⟩ := buildMonth_grid now y m hm.1 hm.2 opts
  obtain ⟨hlen, h7⟩ := weeks_length_of_map_length g.weeks hshape
  refine ⟨g, hg, by omega, by omega, h7, ?_⟩
  rw [hflat, ← List.countP_eq_length_filter, List.countP_map]
  have hpad := monthPad_le y m (opts.weekStartsOn.getD 1)
  have hdim28 : 28 ≤ daysInMonth y m := daysInMonthOf_ge_28 _ _
  have hdim31 : daysInMonth y m ≤ 31 := daysInMonthOf_le_31 _ _
  have hcong : (List.range 42).countP
        ((fun c => c.isCurrentMonth) ∘ monthCellAt now y m opts)
      = (List.range 42).countP
        (fun i => decide (monthPad y m (opts.weekStartsOn.getD 1) ≤ i ∧
          i < monthPad y m (opts.weekStartsOn.getD 1) + daysInMonth y m)) := by
    apply List.countP_congr
    intro i hi
    have hi42 : i < 42 := List.mem_range.mp hi
    have hiff := gridDate_month_iff y m hm.1 hm.2
      (monthPad y m (opts.weekStartsOn.getD 1)) hpad i hi42
    constructor
    · intro hc
      simp only [Function.comp, monthCellAt, monthCell, beq_iff_eq] at hc
      simp only [decide_eq_true_eq]
      exact hiff.mp hc
    · intro hc
      simp only [decide_eq_true_eq] at hc
      simp only [Function.comp, monthCellAt, monthCell, beq_iff_eq]
      exact hiff.mpr hc
  rw [hcong, countP_range_interval _ 42 _ (by omega)]
  omega

/-- C3 witness: February 2024 (leap year) has 29 current-month cells. -/
theorem claim_C3_witness :
    ∃ g : CalendarMonth Unit,
      buildMonth 42 ⟨2024, 6, 1⟩ 2024 2
        (⟨some 1, none, [], none⟩ : BuildMonthOptions Unit) = some g ∧
      4 ≤ g.weeks.length ∧ g.weeks.length ≤ 6 ∧
      (∀ w ∈ g.weeks, w.length = 7) ∧
      (g.weeks.flatten.filter (fun c => c.isCurrentMonth)).length = daysInMonth 2024 2 :=
  claim_C3 ⟨2024, 6, 1⟩ 2024 2 (by decide) ⟨some 1, none, [], none⟩

/-- C2 counterexample: for February 2021 with `weekStartsOn = 1` the month
fits in 4 rows (2021-02-01 is a Monday and the month ends on Sunday
2021-02-28, so the last day of the week containing the month's last day is
2021-02-28), yet the grid still has 6 rows and its last date is 2021-03-14:
the loop does not stop once complete rows cover the month's last day. -/
theorem claim_C2_counterexample :
    ((buildMonth 42 ⟨2021, 2, 15⟩ 2021 2
        (⟨some 1, none, [], none⟩ : BuildMonthOptions Unit)).map
      (fun g => (g.weeks.length, (g.weeks.flatten.map (fun c => c.date)).getLast?)))
      = some (6, some ⟨2021, 3, 14⟩) ∧
    (getWeekDateRange ⟨2021, 2, 28⟩ "UTC" (some 1)).«end».date = ⟨2021, 2, 28⟩ ∧
    (⟨2021, 3, 14⟩ : PlainDate) ≠ ⟨2021, 2, 28⟩ := by
  refine ⟨by decide, by decide, by decide⟩

/-- C2 (amended): `buildMonth` enumerates consecutive dates from the padded
week-aligned start, but stops only when 6 complete 7-day rows have been
emitted: the grid always has exactly 6 rows of 7 days, and its last date is
the padded start plus 41 days, which can lie past the week containing the
target month's last day. -/
theorem claim_C2_amended {T : Type} (now : PlainDate) (y : Int) (m : Nat)
    (hm : 1 ≤ m ∧ m ≤ 12) (opts : BuildMonthOptions T) :
    ∃ g : CalendarMonth T, buildMonth 42 now y m opts = some g ∧
      g.weeks.length = 6 ∧
      (∀ w ∈ g.weeks, w.length = 7) ∧
      (g.weeks.flatten.map (fun c => c.date)).head? =
        some ((⟨y, m, 1⟩ : PlainDate).subDays
          (monthPad y m (opts.weekStartsOn.getD 1))) ∧
      (g.weeks.flatten.map (fun c => c.date)).getLast? =
        some (((⟨y, m, 1⟩ : PlainDate).subDays
          (monthPad y m (opts.weekStartsOn.getD 1))).addDays 41) := by
  obtain ⟨g, hg, hshape, hflat⟩ := buildMonth_grid now y m hm.1 hm.2 opts
  obtain ⟨hlen, h7⟩ := weeks_length_of_map_length g.weeks hshape
  refine ⟨g, hg, hlen, h7, ?_, ?_⟩
  · rw [hflat, List.map_map]
    have hr0 : (List.range 42).head? = some 0 := by decide
    rw [List.head?_map, hr0, Option.map_some']
    have hz : ∀ d : PlainDate, d.addDays 0 = d := fun d => rfl
    rw [show ((fun c : CalendarDay T => c.date) ∘ monthCellAt now y m opts) 0
        = (monthCellAt now y m opts 0).date from rfl, monthCellAt_date, hz]
  · rw [hflat, List.map_map]
    have hr : (List.range 42).getLast? = some 41 := by decide
    rw [List.getLast?_map, hr, Option.map_some']
    rw [show ((fun c : CalendarDay T => c.date) ∘ monthCellAt now y m opts) 41
        = (monthCellAt now y m opts 41).date from rfl, monthCellAt_date]

/-- C2 witness (for the amended claim): February 2021. -/
theorem claim_C2_witness :
    ∃ g : CalendarMonth Unit,
      buildMonth 42 ⟨2021, 2, 15⟩ 2021 2
        (⟨some 1, none, [], none⟩ : BuildMonthOptions Unit) = some g ∧
      g.weeks.length = 6 ∧
      (∀ w ∈ g.weeks, w.length = 7) ∧
      (g.weeks.flatten.map (fun c => c.date)).head? =
        some ((⟨2021, 2, 1⟩ : PlainDate).subDays
          (monthPad 2021 2 ((some 1 : Option Nat).getD 1))) ∧
      (g.weeks.flatten.map (fun c => c.date)).getLast? =
        some (((⟨2021, 2, 1⟩ : PlainDate).subDays
          (monthPad 2021 2 ((some 1 : Option Nat).getD 1))).addDays 41) :=
  claim_C2_amended ⟨2021, 2, 15⟩ 2021 2 (by decide) ⟨some 1, none, [], none⟩

theorem dayNumber_addDaysInt (d : PlainDate) (hv : d.Valid) (n : Int) :
    dayNumber (d.addDaysInt n) = dayNumber d + n := by
  unfold PlainDate.addDaysInt
  split
  · rename_i h
    rw [dayNumber_addDays d hv n.toNat]
    omega
  · rename_i h
    rw [dayNumber_subDays d hv (-n).toNat]
    omega

theorem valid_addDaysInt (d : PlainDate) (hv : d.Valid) (n : Int) :
    (d.addDaysInt n).Valid := by
  unfold PlainDate.addDaysInt
  split
  · exact valid_addDays d hv _
  · exact valid_subDays d hv _

/-- The two behaviours of the source's `daysToAdd = (weekStartsOn + 6 -
endDayOfWeek) % 7` under JavaScript's sign-preserving `%`: non-negative (and
then equal to the Euclidean remainder) except at `weekStartsOn = 0` with a
Sunday-ending month, where it is `-1`. -/
theorem jsMod_range_cases (wso : Nat) (hw : wso ≤ 6) (edow : Nat) (h1 : 1 ≤ edow)
    (h7 : edow ≤ 7) :
    (0 ≤ (wso : Int) + 6 - edow ∧
      jsMod ((wso : Int) + 6 - edow) 7 = ((wso : Int) + 6 - edow) % 7) ∨
    (wso = 0 ∧ edow = 7 ∧ jsMod ((wso : Int) + 6 - edow) 7 = -1) := by
  by_cases hn : 0 ≤ (wso : Int) + 6 - (edow : Int)
  · refine Or.inl ⟨hn, ?_⟩
    unfold jsMod
    exact Int.tmod_eq_emod hn (by norm_num)
  · have hwz : wso = 0 ∧ edow = 7 := by omega
    refine Or.inr ⟨hwz.1, hwz.2, ?_⟩
    have hneg : (wso : Int) + 6 - edow = -1 := by omega
    rw [hneg]
    decide

/-- C4 counterexample: March 2024 ends on a Sunday (2024-03-31, ISO weekday
7); with `weekStartsOn = 0` the source computes `daysToAdd = (0 + 6 - 7) % 7
= -1` (JavaScript's `%` keeps the dividend's sign) and the
"calendar-aligned" month range ends at 2024-03-30 — strictly BEFORE the
month's last day — so the range does not cover the week containing
2024-03-31, refuting the claimed coverage of every week that intersects the
target month. -/
theorem claim_C4_counterexample :
    dayOfWeek ⟨2024, 3, 31⟩ = 7 ∧
    daysInMonth 2024 3 = 31 ∧
    (getMonthDateRange ⟨2024, 3, 15⟩ "UTC" ⟨some 0, none⟩).«end».date = ⟨2024, 3, 30⟩ ∧
    dayNumber (getMonthDateRange ⟨2024, 3, 15⟩ "UTC" ⟨some 0, none⟩).«end».date <
      dayNumber ⟨2024, 3, 31⟩ :=
  ⟨by decide, by decide, by decide, by decide⟩

/-- C4 (amended): with caller convention `weekStartsOn ∈ [0,6]` over ISO
`dayOfWeek` (1 = Monday .. 7 = Sunday): the calendar-aligned month range
starts on a date with `dayOfWeek ≡ weekStartsOn (mod 7)`, ends on a date
with `dayOfWeek ≡ weekStartsOn + 6 (mod 7)`, spans a whole number of 7-day
weeks and its start covers the month's first day; its end covers the
month's last day EXCEPT in one corner: for `weekStartsOn = 0` and a month
ending on a Sunday, JavaScript's sign-preserving `%` yields `daysToAdd =
(0 + 6 - 7) % 7 = -1`, so the range ends exactly one day before the month's
last day and misses that final week.  The week range starts aligned the
same way with `end = start + 6 days`, and the first day of every week of
`buildMonth`'s output has `dayOfWeek ≡ weekStartsOn (mod 7)`. -/
theorem claim_C4_amended {T : Type} (d : PlainDate) (hv : d.Valid) (wso : Nat) (hw : wso ≤ 6)
    (tz : String) (now : PlainDate) (opts : BuildMonthOptions T)
    (hopt : opts.weekStartsOn = some wso) :
    dayOfWeek (getMonthDateRange d tz ⟨some wso, none⟩).start.date % 7 = wso ∧
    dayOfWeek (getMonthDateRange d tz ⟨some wso, none⟩).«end».date % 7 = (wso + 6) % 7 ∧
    (dayNumber (getMonthDateRange d tz ⟨some wso, none⟩).«end».date -
      dayNumber (getMonthDateRange d tz ⟨some wso, none⟩).start.date + 1) % 7 = 0 ∧
    dayNumber (getMonthDateRange d tz ⟨some wso, none⟩).start.date ≤
      dayNumber ⟨d.year, d.month, 1⟩ ∧
    (¬ (wso = 0 ∧ dayOfWeek ⟨d.year, d.month, daysInMonth d.year d.month⟩ = 7) →
      dayNumber ⟨d.year, d.month, daysInMonth d.year d.month⟩ ≤
        dayNumber (getMonthDateRange d tz ⟨some wso, none⟩).«end».date) ∧
    (wso = 0 ∧ dayOfWeek ⟨d.year, d.month, daysInMonth d.year d.month⟩ = 7 →
      dayNumber (getMonthDateRange d tz ⟨some wso, none⟩).«end».date =
        dayNumber ⟨d.year, d.month, daysInMonth d.year d.month⟩ - 1) ∧
    dayOfWeek (getWeekDateRange d tz (some wso)).start.date % 7 = wso ∧
    (getWeekDateRange d tz (some wso)).«end».date =
      (getWeekDateRange d tz (some wso)).start.date.addDays 6 ∧
    (∀ g : CalendarMonth T, buildMonth 42 now d.year d.month opts = some g →
      ∀ w ∈ g.weeks, ∀ c, w.head? = some c → dayOfWeek c.date % 7 = wso) := by
  have hm1 : 1 ≤ d.month := hv.1
  have hm2 : d.month ≤ 12 := hv.2.1
  have hvfirst : (⟨d.year, d.month, 1⟩ : PlainDate).Valid :=
    firstOfMonth_valid d.year d.month hm1 hm2
  have hvlast : (⟨d.year, d.month, daysInMonth d.year d.month⟩ : PlainDate).Valid :=
    lastOfMonth_valid d.year d.month hm1 hm2
  have hs : (getMonthDateRange d tz ⟨some wso, none⟩).start.date =
      (⟨d.year, d.month, 1⟩ : PlainDate).subDays
        (((dayOfWeek ⟨d.year, d.month, 1⟩ : Int) - wso + 7) % 7).toNat := rfl
  have he : (getMonthDateRange d tz ⟨some wso, none⟩).«end».date =
      (⟨d.year, d.month, daysInMonth d.year d.month⟩ : PlainDate).addDaysInt
        (jsMod ((wso : Int) + 6 -
          dayOfWeek ⟨d.year, d.month, daysInMonth d.year d.month⟩) 7) := rfl
  have hws : (getWeekDateRange d tz (some wso)).start.date =
      d.subDays (((dayOfWeek d : Int) - wso + 7) % 7).toNat := rfl
  have hb2 := dayOfWeek_bounds ⟨d.year, d.month, daysInMonth d.year d.month⟩
  have hde : dayNumber ((getMonthDateRange d tz ⟨some wso, none⟩).«end».date) =
      dayNumber ⟨d.year, d.month, daysInMonth d.year d.month⟩ +
        jsMod ((wso : Int) + 6 -
          dayOfWeek ⟨d.year, d.month, daysInMonth d.year d.month⟩) 7 := by
    rw [he]
    exact dayNumber_addDaysInt _ hvlast _
  have hcases := jsMod_range_cases wso hw
    (dayOfWeek ⟨d.year, d.month, daysInMonth d.year d.month⟩) hb2.1 hb2.2
  have hd2 := dayOfWeek_int ⟨d.year, d.month, daysInMonth d.year d.month⟩
  have hdint := dayOfWeek_int (getMonthDateRange d tz ⟨some wso, none⟩).«end».date
  have hbe := dayOfWeek_bounds (getMonthDateRange d tz ⟨some wso, none⟩).«end».date
  refine ⟨?_, ?_, ?_, ?_, ?_, ?_, ?_, ?_, ?_⟩
  · rw [hs]
    exact dow_subPad_mod ⟨d.year, d.month, 1⟩ hvfirst wso hw
  · rcases hcases with ⟨hnn, hjs⟩ | ⟨hw0, he7, hjs⟩ <;> rw [hjs] at hde <;> omega
  · rw [hs]
    have hds := dayNumber_subDays ⟨d.year, d.month, 1⟩ hvfirst
      (((dayOfWeek ⟨d.year, d.month, 1⟩ : Int) - wso + 7) % 7).toNat
    have hlast := dayNumber_lastOfMonth d.year d.month hm1 hm2
    have hd1 := dayOfWeek_int ⟨d.year, d.month, 1⟩
    have hb1 := dayOfWeek_bounds ⟨d.year, d.month, 1⟩
    have hc1 : ((((dayOfWeek ⟨d.year, d.month, 1⟩ : Int) - wso + 7) % 7).toNat : Int)
        = ((dayOfWeek ⟨d.year, d.month, 1⟩ : Int) - wso + 7) % 7 :=
      Int.toNat_of_nonneg (Int.emod_nonneg _ (by norm_num))
    have h28 : 28 ≤ daysInMonth d.year d.month := daysInMonthOf_ge_28 _ _
    have h31 : daysInMonth d.year d.month ≤ 31 := daysInMonthOf_le_31 _ _
    rcases hcases with ⟨hnn, hjs⟩ | ⟨hw0, he7, hjs⟩ <;> rw [hjs] at hde <;> omega
  · rw [hs]
    have hds := dayNumber_subDays ⟨d.year, d.month, 1⟩ hvfirst
      (((dayOfWeek ⟨d.year, d.month, 1⟩ : Int) - wso + 7) % 7).toNat
    omega
  · intro hnc
    rcases hcases with ⟨hnn, hjs⟩ | ⟨hw0, he7, hjs⟩
    · rw [hjs] at hde
      omega
    · exact absurd ⟨hw0, he7⟩ hnc
  · rintro ⟨hw0, he7⟩
    rcases hcases with ⟨hnn, hjs⟩ | ⟨hw0b, he7b, hjs⟩
    · omega
    · rw [hjs] at hde
      omega
  · rw [hws]
    exact dow_subPad_mod d hv wso hw
  · unfold getWeekDateRange
    dsimp only
  · intro g hg w hwmem c hc
    have hrun := buildMonth_run now d.year d.month hm1 hm2 opts
    rw [hrun] at hg
    have hgeq : g = { weeks := weeksAfter (monthCellAt now d.year d.month opts) 42
                    , month := (d.year, d.month) } := by
      exact (Option.some.inj hg).symm
    subst hgeq
    dsimp only at hwmem hc
    obtain ⟨k, hk, rfl⟩ := List.getElem_of_mem hwmem
    have h7 : ∀ w ∈ weeksAfter (monthCellAt now d.year d.month opts) 42, w.length = 7 := by
      intro w hw2
      have hmem : w.length ∈ (weeksAfter (monthCellAt now d.year d.month opts) 42).map
          List.length := List.mem_map_of_mem _ hw2
      rw [weeksAfter_map_length, weekShape_42] at hmem
      simpa using hmem
    have hk6 : k < 6 := by
      have := length_weeksAfter (monthCellAt now d.year d.month opts) 42
      rw [weekShape_42] at this
      simp at this
      omega
    rw [head_of_week _ h7 k hk, weeksAfter_flatten] at hc
    have hlook : ((List.range 42).map (monthCellAt now d.year d.month opts))[7 * k]?
        = some (monthCellAt now d.year d.month opts (7 * k)) := by
      rw [List.getElem?_map]
      have : (List.range 42)[7 * k]? = some (7 * k) := by
        rw [List.getElem?_range (by omega)]
      rw [this]
      rfl
    rw [hlook] at hc
    have hceq : c = monthCellAt now d.year d.month opts (7 * k) := (Option.some.inj hc).symm
    subst hceq
    rw [monthCellAt_date, hopt]
    have hvstart : ((⟨d.year, d.month, 1⟩ : PlainDate).subDays
        (monthPad d.year d.month ((some wso : Option Nat).getD 1))).Valid :=
      valid_subDays _ hvfirst _
    rw [dow_mod_addWeeks _ hvstart k]
    have hgd : (some wso : Option Nat).getD 1 = wso := rfl
    rw [hgd]
    exact dow_subPad_mod ⟨d.year, d.month, 1⟩ hvfirst wso hw

/-- C4 witness: reference 2024-01-18 (a Thursday), `weekStartsOn = 1` (a
non-corner instance, so the coverage clause applies with its antecedent
true). -/
theorem claim_C4_witness :
    dayOfWeek (getMonthDateRange ⟨2024, 1, 18⟩ "UTC" ⟨some 1, none⟩).start.date % 7 = 1 ∧
    dayOfWeek (getMonthDateRange ⟨2024, 1, 18⟩ "UTC" ⟨some 1, none⟩).«end».date % 7
      = (1 + 6) % 7 ∧
    (dayNumber (getMonthDateRange ⟨2024, 1, 18⟩ "UTC" ⟨some 1, none⟩).«end».date -
      dayNumber (getMonthDateRange ⟨2024, 1, 18⟩ "UTC" ⟨some 1, none⟩).start.date + 1) % 7
      = 0 ∧
    dayNumber (getMonthDateRange ⟨2024, 1, 18⟩ "UTC" ⟨some 1, none⟩).start.date ≤
      dayNumber ⟨2024, 1, 1⟩ ∧
    (¬ ((1 : Nat) = 0 ∧ dayOfWeek ⟨2024, 1, daysInMonth 2024 1⟩ = 7) →
      dayNumber ⟨2024, 1, daysInMonth 2024 1⟩ ≤
        dayNumber (getMonthDateRange ⟨2024, 1, 18⟩ "UTC" ⟨some 1, none⟩).«end».date) ∧
    ((1 : Nat) = 0 ∧ dayOfWeek ⟨2024, 1, daysInMonth 2024 1⟩ = 7 →
      dayNumber (getMonthDateRange ⟨2024, 1, 18⟩ "UTC" ⟨some 1, none⟩).«end».date =
        dayNumber ⟨2024, 1, daysInMonth 2024 1⟩ - 1) ∧
    dayOfWeek (getWeekDateRange ⟨2024, 1, 18⟩ "UTC" (some 1)).start.date % 7 = 1 ∧
    (getWeekDateRange ⟨2024, 1, 18⟩ "UTC" (some 1)).«end».date =
      (getWeekDateRange ⟨2024, 1, 18⟩ "UTC" (some 1)).start.date.addDays 6 ∧
    (∀ g : CalendarMonth Unit,
      buildMonth 42 ⟨2024, 6, 1⟩ 2024 1
        (⟨some 1, none, [], none⟩ : BuildMonthOptions Unit) = some g →
      ∀ w ∈ g.weeks, ∀ c, w.head? = some c → dayOfWeek c.date % 7 = 1) :=
  claim_C4_amended ⟨2024, 1, 18⟩ (by decide) 1 (by decide) "UTC" ⟨2024, 6, 1⟩
    ⟨some 1, none, [], none⟩ rfl

theorem toMs_lt_day (t : PlainTime) (ht : t.Valid) : t.toMs < 86400000 := by
  obtain ⟨h1, h2, h3, h4⟩ := ht
  unfold PlainTime.toMs
  omega

/-- C5 counterexample: with `slotDuration = 1440` and `endHour = 24` the only
slot of the day is the final one and starts at `00:00`; an item whose start
time is exactly `00:00` lies in `[slot start, midnight)` but the built grid
drops it (the final-slot rule demands strictly-after-midnight). -/
theorem claim_C5_counterexample :
    buildSlotsGo
        (some (fun _ : Unit => ⟨⟨2024, 1, 1⟩, ⟨0, 0, 0, 0⟩, "UTC"⟩)) [()] 24 1440 2 0 0
      = some [⟨0, 0, ⟨0, 0, 0, 0⟩, []⟩] ∧
    PlainTime.toMs ⟨0, 0, 0, 0⟩ ≤ PlainTime.toMs ⟨0, 0, 0, 0⟩ ∧
    PlainTime.toMs ⟨0, 0, 0, 0⟩ < 86400000 :=
  ⟨rfl, Nat.le_refl _, by decide⟩

/-- C5 (amended): for `endHour = 24` and `slotDuration ≥ 1` the slot loop
completes and yields a non-empty grid; every non-final slot admits exactly the
items with start time in the half-open window `[slot start, slot start +
slotDuration)`; the final slot admits exactly the items with start time in
`[final slot start, midnight)` AND strictly after `00:00` — which coincides
with the claimed `[final slot start, midnight)` rule whenever the final slot
starts after `00:00` (always the case for `slotDuration ≤ 1439`, e.g. the
23:00 slot of the 23:59-item scenario), but drops an exactly-`00:00` item when
`slotDuration ≥ 1440` makes the final slot start at `00:00`. -/
theorem claim_C5_amended {T : Type} (gs : T → ZonedDateTime) (dayItems : List T)
    (dur : Nat) (hdur : 1 ≤ dur)
    (hvt : ∀ item ∈ dayItems, ((gs item).time).Valid)
    (fuel h mnt : Nat) (hh : h < 24) (hm : mnt ≤ 59) (hf : 1440 ≤ 60 * h + mnt + fuel) :
    ∃ slots, buildSlotsGo (some gs) dayItems 24 dur fuel h mnt = some slots ∧
      slots ≠ [] ∧
      (∀ L, slots.getLast? = some L → 0 < L.time.toMs →
        ∀ item ∈ dayItems,
          (item ∈ L.items ↔
            L.time.toMs ≤ ((gs item).time).toMs ∧ ((gs item).time).toMs < 86400000)) ∧
      (∀ L, slots.getLast? = some L → ∀ item ∈ dayItems,
        (item ∈ L.items ↔
          L.time.toMs ≤ ((gs item).time).toMs ∧ 0 < ((gs item).time).toMs)) ∧
      (∀ S ∈ slots.dropLast, ∀ item ∈ dayItems,
        (item ∈ S.items ↔
          S.time.toMs ≤ ((gs item).time).toMs ∧
            ((gs item).time).toMs < S.time.toMs + dur * 60000)) := by
  obtain ⟨slots, hgo, hne, hlast, hmid⟩ :=
    buildSlotsGo_spec gs dayItems dur hdur hvt fuel h mnt hh hm hf
  refine ⟨slots, hgo, hne, ?_, hlast, hmid⟩
  intro L hL hpos item hitem
  rw [hlast L hL item hitem]
  have hlt := toMs_lt_day ((gs item).time) (hvt item hitem)
  constructor
  · rintro ⟨hle, _⟩
    exact ⟨hle, hlt⟩
  · rintro ⟨hle, _⟩
    exact ⟨hle, by omega⟩

/-- C5 witness: the 23:59-item scenario at `slotDuration = 60`, `startHour =
0`, `endHour = 24`, run with fuel 1440. -/
theorem claim_C5_witness :
    ∃ slots,
      buildSlotsGo
          (some (fun _ : Unit => ⟨⟨2024, 1, 1⟩, ⟨23, 59, 0, 0⟩, "UTC"⟩)) [()] 24 60 1440 0 0
        = some slots ∧
      slots ≠ [] ∧
      (∀ L, slots.getLast? = some L → 0 < L.time.toMs →
        ∀ item ∈ [()],
          (item ∈ L.items ↔
            L.time.toMs ≤
                PlainTime.toMs ((fun _ : Unit => (⟨⟨2024, 1, 1⟩, ⟨23, 59, 0, 0⟩, "UTC"⟩ :
                  ZonedDateTime)) item).time ∧
              PlainTime.toMs ((fun _ : Unit => (⟨⟨2024, 1, 1⟩, ⟨23, 59, 0, 0⟩, "UTC"⟩ :
                  ZonedDateTime)) item).time < 86400000)) ∧
      (∀ L, slots.getLast? = some L → ∀ item ∈ [()],
        (item ∈ L.items ↔
          L.time.toMs ≤
              PlainTime.toMs ((fun _ : Unit => (⟨⟨2024, 1, 1⟩, ⟨23, 59, 0, 0⟩, "UTC"⟩ :
                ZonedDateTime)) item).time ∧
            0 < PlainTime.toMs ((fun _ : Unit => (⟨⟨2024, 1, 1⟩, ⟨23, 59, 0, 0⟩, "UTC"⟩ :
                ZonedDateTime)) item).time)) ∧
      (∀ S ∈ slots.dropLast, ∀ item ∈ [()],
        (item ∈ S.items ↔
          S.time.toMs ≤
              PlainTime.toMs ((fun _ : Unit => (⟨⟨2024, 1, 1⟩, ⟨23, 59, 0, 0⟩, "UTC"⟩ :
                ZonedDateTime)) item).time ∧
            PlainTime.toMs ((fun _ : Unit => (⟨⟨2024, 1, 1⟩, ⟨23, 59, 0, 0⟩, "UTC"⟩ :
                ZonedDateTime)) item).time < S.time.toMs + 60 * 60000)) :=
  claim_C5_amended (fun _ : Unit => ⟨⟨2024, 1, 1⟩, ⟨23, 59, 0, 0⟩, "UTC"⟩) [()] 60
    (by decide)
    (by intro item h; show (⟨23, 59, 0, 0⟩ : PlainTime).Valid; decide) 1440 0 0 (by decide) (by decide) (by decide)

theorem slots_zero_duration_loops :
    ∀ fuel, buildSlotsGo (T := Unit) none [] 1 0 fuel 0 0 = none := by
  intro fuel
  induction fuel with
  | zero => rfl
  | succ n ih =>
      rw [buildSlotsGo.eq_def]
      dsimp only
      norm_num
      rw [ih]

/-- C9 counterexample: with `slotDuration = 0` the slot loop of `buildDay`
never advances past `startHour`, so no amount of fuel completes it — the
original TypeScript `while` loop diverges although the public interface
accepts `slotDuration = 0`. -/
theorem claim_C9_counterexample : ¬ slotsTerminate 0 1 0 := by
  rintro ⟨fuel, hf⟩
  rw [slots_zero_duration_loops fuel] at hf
  simp at hf

/-- C9 (amended): the grid builders are pure and terminating on the inputs the
interface is meant for — `buildMonth` always completes within its 42-cell
window, and `buildDay`'s slot loop completes for every `slotDuration ≥ 1`
(any `startHour`/`endHour`) with fuel `60 * endHour` — but NOT for every
accepted input: at `slotDuration = 0` the loop never terminates. -/
theorem claim_C9_amended :
    (∀ (T : Type) (now : PlainDate) (y : Int) (m : Nat) (opts : BuildMonthOptions T),
        1 ≤ m → m ≤ 12 → (buildMonth 42 now y m opts).isSome = true) ∧
    (∀ sh eh dur : Nat, 1 ≤ dur → slotsTerminate sh eh dur) ∧
    (∀ (T : Type) (fuel : Nat) (now date : PlainDate) (options : BuildDayOptions T),
        1 ≤ options.slotDuration.getD 30 → 60 * options.endHour.getD 24 ≤ fuel →
        (buildDay fuel now date options).isSome = true) ∧
    ¬ slotsTerminate 0 1 0 := by
  refine ⟨?_, ?_, ?_, ?_⟩
  · intro T now y m opts hm1 hm2
    rw [buildMonth_run now y m hm1 hm2 opts]
    rfl
  · intro sh eh dur hdur
    refine ⟨60 * eh, ?_⟩
    exact buildSlotsGo_terminates none [] eh dur hdur (60 * eh) sh 0 (by omega) (by omega)
  · intro T fuel now date options hdur hfuel
    unfold buildDay
    dsimp only
    rw [Option.isSome_map']
    exact buildSlotsGo_terminates _ _ _ _ hdur fuel _ 0 (by omega) (by omega)
  · rintro ⟨fuel, hf⟩
    rw [slots_zero_duration_loops fuel] at hf
    simp at hf

/-- C1: for a calendar whose initial-state override gives no explicit
`dateRange`, the created state's `dateRange` is the pure recomputation from
its `referenceDate` and (resolved) `currentView`; after every `setState`
mutation — any updater, full replacement or partial patch — the committed
state's `dateRange` is that same pure recomputation from the merged fields;
`computeDateRange` always places `start` at 00:00:00.000 and `end` at
23:59:59.999 in the configured time zone; and the change callback is invoked
with exactly the committed state when (and only when) one is registered. -/
theorem claim_C1 {T : Type} (cfg : EngineConfig T) (old : CalendarState)
    (updater : StateUpdater) (now : PlainDate)
    (hnodr : cfg.options.state.bind (fun s => s.dateRange) = none) :
    ((createState now cfg).dateRange =
      computeDateRange (resolveViewName (createState now cfg).currentView cfg.defaultView)
        (createState now cfg).referenceDate cfg.timeZone cfg.weekStartsOn) ∧
    ((setStateImpl cfg old updater).committed.dateRange =
      computeDateRange
        (resolveViewName (setStateImpl cfg old updater).committed.currentView cfg.defaultView)
        (setStateImpl cfg old updater).committed.referenceDate cfg.timeZone cfg.weekStartsOn) ∧
    (∀ view ref,
      (computeDateRange view ref cfg.timeZone cfg.weekStartsOn).start.time = startOfDayTime ∧
      (computeDateRange view ref cfg.timeZone cfg.weekStartsOn).«end».time = endOfDayTime ∧
      (computeDateRange view ref cfg.timeZone cfg.weekStartsOn).start.timeZone = cfg.timeZone ∧
      (computeDateRange view ref cfg.timeZone cfg.weekStartsOn).«end».timeZone = cfg.timeZone) ∧
    (setStateImpl cfg old updater).notified =
      (if cfg.options.hasOnStateChange then [(setStateImpl cfg old updater).committed]
       else []) := by
  refine ⟨?_, ?_, ?_, ?_⟩
  · unfold createState
    dsimp only
    cases hs : cfg.options.state with
    | none =>
        dsimp only [Option.bind, Option.getD, resolveViewName]
        split <;> rfl
    | some s =>
        rw [hs] at hnodr
        dsimp only [Option.bind] at hnodr ⊢
        rw [hnodr]
        cases hcv : s.currentView with
        | none =>
            cases href : s.referenceDate with
            | none =>
                dsimp only [Option.getD, resolveViewName]
                split <;> rfl
            | some r =>
                dsimp only [Option.getD, resolveViewName]
                split <;> rfl
        | some v =>
            cases href : s.referenceDate with
            | none => dsimp only [Option.getD, resolveViewName]
            | some r => dsimp only [Option.getD, resolveViewName]
  · rfl
  · intro view ref
    refine ⟨?_, ?_, ?_, ?_⟩ <;> (unfold computeDateRange; split_ifs <;> rfl)
  · rfl

/-- C1 witness: the demo month-only calendar, mutated by `nextMonth`. -/
theorem claim_C1_witness :
    ((createState ⟨2024, 1, 15⟩ demoConfig).dateRange =
      computeDateRange
        (resolveViewName (createState ⟨2024, 1, 15⟩ demoConfig).currentView
          demoConfig.defaultView)
        (createState ⟨2024, 1, 15⟩ demoConfig).referenceDate demoConfig.timeZone
        demoConfig.weekStartsOn) ∧
    ((setStateImpl demoConfig demoState nextMonthUpdater).committed.dateRange =
      computeDateRange
        (resolveViewName
          (setStateImpl demoConfig demoState nextMonthUpdater).committed.currentView
          demoConfig.defaultView)
        (setStateImpl demoConfig demoState nextMonthUpdater).committed.referenceDate
        demoConfig.timeZone demoConfig.weekStartsOn) ∧
    (∀ view ref,
      (computeDateRange view ref demoConfig.timeZone demoConfig.weekStartsOn).start.time =
        startOfDayTime ∧
      (computeDateRange view ref demoConfig.timeZone demoConfig.weekStartsOn).«end».time =
        endOfDayTime ∧
      (computeDateRange view ref demoConfig.timeZone demoConfig.weekStartsOn).start.timeZone =
        demoConfig.timeZone ∧
      (computeDateRange view ref demoConfig.timeZone demoConfig.weekStartsOn).«end».timeZone =
        demoConfig.timeZone) ∧
    (setStateImpl demoConfig demoState nextMonthUpdater).notified =
      (if demoConfig.options.hasOnStateChange then
        [(setStateImpl demoConfig demoState nextMonthUpdater).committed]
       else []) :=
  claim_C1 demoConfig demoState nextMonthUpdater ⟨2024, 1, 15⟩ rfl

/-- C6: the navigation steppers. Month stepping moves the year-month by
exactly one (linearized: `12*year + month` changes by ±1) and snaps the
reference date to day 1 of the resulting month; week stepping moves the
reference date by exactly 7 days (no snapping), day stepping by exactly 1
day; and every stepper is literally `setState` applied to its updater, so
the recompute-and-notify behaviour of `setState` follows. -/
theorem claim_C6 {T : Type} (cfg : EngineConfig T) (st : CalendarState)
    (hv : st.referenceDate.Valid) :
    ((nextMonthImpl cfg st).committed.referenceDate =
      ⟨(nextMonth (st.referenceDate.year, st.referenceDate.month)).1,
       (nextMonth (st.referenceDate.year, st.referenceDate.month)).2, 1⟩) ∧
    ((previousMonthImpl cfg st).committed.referenceDate =
      ⟨(previousMonth (st.referenceDate.year, st.referenceDate.month)).1,
       (previousMonth (st.referenceDate.year, st.referenceDate.month)).2, 1⟩) ∧
    (12 * (nextMonth (st.referenceDate.year, st.referenceDate.month)).1 +
        ((nextMonth (st.referenceDate.year, st.referenceDate.month)).2 : Int) =
      12 * st.referenceDate.year + st.referenceDate.month + 1) ∧
    (12 * (previousMonth (st.referenceDate.year, st.referenceDate.month)).1 +
        ((previousMonth (st.referenceDate.year, st.referenceDate.month)).2 : Int) =
      12 * st.referenceDate.year + st.referenceDate.month - 1) ∧
    ((nextWeekImpl cfg st).committed.referenceDate = st.referenceDate.addDays 7 ∧
      dayNumber (nextWeekImpl cfg st).committed.referenceDate =
        dayNumber st.referenceDate + 7) ∧
    ((previousWeekImpl cfg st).committed.referenceDate = st.referenceDate.subDays 7 ∧
      dayNumber (previousWeekImpl cfg st).committed.referenceDate =
        dayNumber st.referenceDate - 7) ∧
    ((nextDayImpl cfg st).committed.referenceDate = st.referenceDate.addDays 1 ∧
      dayNumber (nextDayImpl cfg st).committed.referenceDate =
        dayNumber st.referenceDate + 1) ∧
    ((previousDayImpl cfg st).committed.referenceDate = st.referenceDate.subDays 1 ∧
      dayNumber (previousDayImpl cfg st).committed.referenceDate =
        dayNumber st.referenceDate - 1) ∧
    nextMonthImpl cfg st = setStateImpl cfg st nextMonthUpdater ∧
    previousMonthImpl cfg st = setStateImpl cfg st previousMonthUpdater ∧
    nextWeekImpl cfg st = setStateImpl cfg st nextWeekUpdater ∧
    previousWeekImpl cfg st = setStateImpl cfg st previousWeekUpdater ∧
    nextDayImpl cfg st = setStateImpl cfg st nextDayUpdater ∧
    previousDayImpl cfg st = setStateImpl cfg st previousDayUpdater := by
  obtain ⟨hm1, hm2, hd1, hd2⟩ := hv
  have hrefl : ∀ u : StateUpdater,
      (setStateImpl cfg st u).committed.referenceDate =
        (applyPatch st
          (match u with
           | StateUpdater.full s => fullPatch s
           | StateUpdater.patch f => f st)).referenceDate := fun _ => rfl
  have hnw : (nextWeekImpl cfg st).committed.referenceDate = st.referenceDate.addDays 7 := by
    rw [nextWeekImpl, hrefl nextWeekUpdater]
    dsimp only [nextWeekUpdater, applyPatch, Option.getD]
    rw [nextWeek]
  have hpw : (previousWeekImpl cfg st).committed.referenceDate =
      st.referenceDate.subDays 7 := by
    rw [previousWeekImpl, hrefl previousWeekUpdater]
    dsimp only [previousWeekUpdater, applyPatch, Option.getD]
    rw [previousWeek]
  have hnd : (nextDayImpl cfg st).committed.referenceDate = st.referenceDate.addDays 1 := by
    rw [nextDayImpl, hrefl nextDayUpdater]
    dsimp only [nextDayUpdater, applyPatch, Option.getD]
    rw [nextDay]
  have hpd : (previousDayImpl cfg st).committed.referenceDate =
      st.referenceDate.subDays 1 := by
    rw [previousDayImpl, hrefl previousDayUpdater]
    dsimp only [previousDayUpdater, applyPatch, Option.getD]
    rw [previousDay]
  have hnm : (nextMonthImpl cfg st).committed.referenceDate =
      ⟨(nextMonth (st.referenceDate.year, st.referenceDate.month)).1,
       (nextMonth (st.referenceDate.year, st.referenceDate.month)).2, 1⟩ := by
    rw [nextMonthImpl, hrefl nextMonthUpdater]
    dsimp only [nextMonthUpdater, applyPatch, Option.getD]
  have hpm : (previousMonthImpl cfg st).committed.referenceDate =
      ⟨(previousMonth (st.referenceDate.year, st.referenceDate.month)).1,
       (previousMonth (st.referenceDate.year, st.referenceDate.month)).2, 1⟩ := by
    rw [previousMonthImpl, hrefl previousMonthUpdater]
    dsimp only [previousMonthUpdater, applyPatch, Option.getD]
  refine ⟨hnm, hpm, ?_, ?_, ⟨hnw, ?_⟩, ⟨hpw, ?_⟩, ⟨hnd, ?_⟩, ⟨hpd, ?_⟩,
    rfl, rfl, rfl, rfl, rfl, rfl⟩
  · unfold nextMonth
    dsimp only
    split <;> rename_i h <;> simp only [h] <;> push_cast <;> omega
  · unfold previousMonth
    dsimp only
    split <;> rename_i h <;> simp only [h] <;> push_cast <;> omega
  · rw [hnw]
    exact dayNumber_addDays st.referenceDate ⟨hm1, hm2, hd1, hd2⟩ 7
  · rw [hpw]
    exact dayNumber_subDays st.referenceDate ⟨hm1, hm2, hd1, hd2⟩ 7
  · rw [hnd]
    exact dayNumber_addDays st.referenceDate ⟨hm1, hm2, hd1, hd2⟩ 1
  · rw [hpd]
    exact dayNumber_subDays st.referenceDate ⟨hm1, hm2, hd1, hd2⟩ 1

/-- C6 witness: the demo calendar at reference date 2024-01-15; in
particular `nextMonth()` commits reference date 2024-02-01. -/
theorem claim_C6_witness :
    (((nextMonthImpl demoConfig demoState).committed.referenceDate =
      ⟨(nextMonth (demoState.referenceDate.year, demoState.referenceDate.month)).1,
       (nextMonth (demoState.referenceDate.year, demoState.referenceDate.month)).2, 1⟩) ∧
    ((previousMonthImpl demoConfig demoState).committed.referenceDate =
      ⟨(previousMonth (demoState.referenceDate.year, demoState.referenceDate.month)).1,
       (previousMonth (demoState.referenceDate.year, demoState.referenceDate.month)).2, 1⟩) ∧
    (12 * (nextMonth (demoState.referenceDate.year, demoState.referenceDate.month)).1 +
        ((nextMonth (demoState.referenceDate.year, demoState.referenceDate.month)).2 : Int) =
      12 * demoState.referenceDate.year + demoState.referenceDate.month + 1) ∧
    (12 * (previousMonth (demoState.referenceDate.year, demoState.referenceDate.month)).1 +
        ((previousMonth (demoState.referenceDate.year,
          demoState.referenceDate.month)).2 : Int) =
      12 * demoState.referenceDate.year + demoState.referenceDate.month - 1) ∧
    ((nextWeekImpl demoConfig demoState).committed.referenceDate =
        demoState.referenceDate.addDays 7 ∧
      dayNumber (nextWeekImpl demoConfig demoState).committed.referenceDate =
        dayNumber demoState.referenceDate + 7) ∧
    ((previousWeekImpl demoConfig demoState).committed.referenceDate =
        demoState.referenceDate.subDays 7 ∧
      dayNumber (previousWeekImpl demoConfig demoState).committed.referenceDate =
        dayNumber demoState.referenceDate - 7) ∧
    ((nextDayImpl demoConfig demoState).committed.referenceDate =
        demoState.referenceDate.addDays 1 ∧
      dayNumber (nextDayImpl demoConfig demoState).committed.referenceDate =
        dayNumber demoState.referenceDate + 1) ∧
    ((previousDayImpl demoConfig demoState).committed.referenceDate =
        demoState.referenceDate.subDays 1 ∧
      dayNumber (previousDayImpl demoConfig demoState).committed.referenceDate =
        dayNumber demoState.referenceDate - 1) ∧
    nextMonthImpl demoConfig demoState = setStateImpl demoConfig demoState nextMonthUpdater ∧
    previousMonthImpl demoConfig demoState =
      setStateImpl demoConfig demoState previousMonthUpdater ∧
    nextWeekImpl demoConfig demoState = setStateImpl demoConfig demoState nextWeekUpdater ∧
    previousWeekImpl demoConfig demoState =
      setStateImpl demoConfig demoState previousWeekUpdater ∧
    nextDayImpl demoConfig demoState = setStateImpl demoConfig demoState nextDayUpdater ∧
    previousDayImpl demoConfig demoState =
      setStateImpl demoConfig demoState previousDayUpdater) ∧
    (nextMonthImpl demoConfig demoState).committed.referenceDate = ⟨2024, 2, 1⟩ :=
  ⟨claim_C6 demoConfig demoState (by decide), rfl⟩

/-- C7 counterexample: for the demo calendar (change callback registered) an
unrecognized view name makes `getTitle` throw, but `next` does NOT signal any
error: its `switch` has no `default` case, so it falls through, commits the
old state unchanged and never notifies. -/
theorem claim_C7_counterexample :
    next demoConfig demoState (some "agenda") =
      { committed := demoState, notified := [] } ∧
    previous demoConfig demoState (some "agenda") =
      { committed := demoState, notified := [] } ∧
    getTitle 42 demoConfig demoState ⟨2024, 1, 15⟩ (some "agenda") =
      Except.error "Unknown view: agenda" :=
  ⟨rfl, rfl, rfl⟩

/-- C7 (amended): requesting an unconfigured view's grid throws
(`Except.error`), and an unrecognized view name passed to `getTitle` throws
`Unknown view: ...` — but, contrary to the claim, `next` and `previous` do
NOT signal an error on an unrecognized view name: they return the state
unchanged with no notification. -/
theorem claim_C7_amended {T : Type} (fuel : Nat) (cfg : EngineConfig T)
    (st : CalendarState) (now : PlainDate) (v : String)
    (hv : v ≠ "month" ∧ v ≠ "week" ∧ v ≠ "day") :
    (cfg.options.views.month = none → ∀ data : List T,
      getMonthImpl fuel cfg st now data = Except.error "Month view not configured") ∧
    (cfg.options.views.week = none → ∀ data : List T,
      getWeekImpl fuel cfg st now data = Except.error "Week view not configured") ∧
    (cfg.options.views.day = none → ∀ data : List T,
      getDayImpl fuel cfg st now data = Except.error "Day view not configured") ∧
    getTitle fuel cfg st now (some v) = Except.error ("Unknown view: " ++ v) ∧
    next cfg st (some v) = { committed := st, notified := [] } ∧
    previous cfg st (some v) = { committed := st, notified := [] } := by
  obtain ⟨hvm, hvw, hvd⟩ := hv
  refine ⟨?_, ?_, ?_, ?_, ?_, ?_⟩
  · intro h data
    unfold getMonthImpl
    rw [h]
  · intro h data
    unfold getWeekImpl
    rw [h]
  · intro h data
    unfold getDayImpl
    rw [h]
  · unfold getTitle
    dsimp only [Option.getD]
    rw [if_neg hvm, if_neg hvw, if_neg hvd]
  · unfold next
    dsimp only [Option.getD]
    rw [if_neg hvm, if_neg hvw, if_neg hvd]
  · unfold previous
    dsimp only [Option.getD]
    rw [if_neg hvm, if_neg hvw, if_neg hvd]

/-- C7 witness: the demo calendar (month-only) with the view name
`"agenda"`. -/
theorem claim_C7_witness :
    (demoConfig.options.views.month = none → ∀ data : List Unit,
      getMonthImpl 42 demoConfig demoState ⟨2024, 1, 15⟩ data =
        Except.error "Month view not configured") ∧
    (demoConfig.options.views.week = none → ∀ data : List Unit,
      getWeekImpl 42 demoConfig demoState ⟨2024, 1, 15⟩ data =
        Except.error "Week view not configured") ∧
    (demoConfig.options.views.day = none → ∀ data : List Unit,
      getDayImpl 42 demoConfig demoState ⟨2024, 1, 15⟩ data =
        Except.error "Day view not configured") ∧
    getTitle 42 demoConfig demoState ⟨2024, 1, 15⟩ (some "agenda") =
      Except.error ("Unknown view: " ++ "agenda") ∧
    next demoConfig demoState (some "agenda") =
      { committed := demoState, notified := [] } ∧
    previous demoConfig demoState (some "agenda") =
      { committed := demoState, notified := [] } :=
  claim_C7_amended 42 demoConfig demoState ⟨2024, 1, 15⟩ "agenda"
    ⟨by decide, by decide, by decide⟩

/-- C8 (code bug): `getMonth`'s result never reads `options.data` — it only
reads its own `data` parameter, whose default is `[]`. So for the demo
calendar built with `options.data = [()]` (one item on 2024-01-15, with an
accessor configured), the no-argument call returns a grid whose 42 cells are
ALL empty, while passing the same items explicitly puts the item in the
2024-01-15 cell — contradicting the claim (and the repository's own tests)
that constructor-supplied items populate the cells. -/
theorem claim_C8 :
    (∀ (T : Type) (fuel : Nat) (cfg cfg' : EngineConfig T) (st : CalendarState)
        (now : PlainDate) (data : List T),
      cfg.options.views.month = cfg'.options.views.month →
      getMonthImpl fuel cfg st now data = getMonthImpl fuel cfg' st now data) ∧
    demoConfig.options.data = [()] ∧
    (∃ g : CalendarMonth Unit,
      getMonthImpl 42 demoConfig demoState ⟨2024, 1, 15⟩ [] = Except.ok (some g) ∧
      ∀ w ∈ g.weeks, ∀ c ∈ w, c.items = []) ∧
    (∃ g : CalendarMonth Unit,
      getMonthImpl 42 demoConfig demoState ⟨2024, 1, 15⟩ demoConfig.options.data =
        Except.ok (some g) ∧
      ∃ w ∈ g.weeks, ∃ c ∈ w, c.date = ⟨2024, 1, 15⟩ ∧ c.items = [()]) := by
  refine ⟨?_, rfl, ?_, ?_⟩
  · intro T fuel cfg cfg' st now data h
    unfold getMonthImpl
    rw [h]
  · refine ⟨{ weeks := weeksAfter (monthCellAt ⟨2024, 1, 15⟩ 2024 1 (demoBuildOptions [])) 42
            , month := (2024, 1) }, ?_, ?_⟩
    · have h1 : getMonthImpl 42 demoConfig demoState ⟨2024, 1, 15⟩ [] =
          Except.ok (buildMonth 42 ⟨2024, 1, 15⟩ 2024 1 (demoBuildOptions [])) := rfl
      rw [h1, buildMonth_run ⟨2024, 1, 15⟩ 2024 1 (by decide) (by decide)
        (demoBuildOptions [])]
    · intro w hw c hc
      have hcf : c ∈ (weeksAfter (monthCellAt ⟨2024, 1, 15⟩ 2024 1
          (demoBuildOptions [])) 42).flatten := List.mem_flatten.mpr ⟨w, hw, hc⟩
      rw [weeksAfter_flatten] at hcf
      obtain ⟨i, hi, hic⟩ := List.mem_map.mp hcf
      rw [← hic]
      rfl
  · refine ⟨{ weeks := weeksAfter (monthCellAt ⟨2024, 1, 15⟩ 2024 1
               (demoBuildOptions [()])) 42
            , month := (2024, 1) }, ?_, ?_⟩
    · have h1 : getMonthImpl 42 demoConfig demoState ⟨2024, 1, 15⟩
            demoConfig.options.data =
          Except.ok (buildMonth 42 ⟨2024, 1, 15⟩ 2024 1 (demoBuildOptions [()])) := rfl
      rw [h1, buildMonth_run ⟨2024, 1, 15⟩ 2024 1 (by decide) (by decide)
        (demoBuildOptions [()])]
    · have hcell : monthCellAt ⟨2024, 1, 15⟩ 2024 1 (demoBuildOptions [()]) 14 ∈
          (weeksAfter (monthCellAt ⟨2024, 1, 15⟩ 2024 1 (demoBuildOptions [()])) 42).flatten := by
        rw [weeksAfter_flatten]
        exact List.mem_map.mpr ⟨14, by decide, rfl⟩
      obtain ⟨w, hw, hc⟩ := List.mem_flatten.mp hcell
      exact ⟨w, hw, monthCellAt ⟨2024, 1, 15⟩ 2024 1 (demoBuildOptions [()]) 14, hc,
        by decide, by decide⟩

end Spec2Proof
